import Mathlib

/-
Verification of the Game-of-Life state-transition engine of src/main.rs.

Embedding conventions:
  * `u16` values are modelled as `Nat`.  Every subtraction in the source is
    guarded (`row > 0`, `col > 0`), so `Nat` subtraction agrees with the `u16`
    arithmetic, and the additions `row + 1`, `col + 1` stay far below `2^16`
    for any coordinate that lies in (or next to) a grid.
  * A Rust `Vec` index panic is modelled by `Option`: `none` means the program
    panicked.  All grid reads and writes go through `cellVal` / `setCell`,
    which return `none` exactly when the index is out of bounds.
  * The two `println!` calls inside `update_state` (main.rs lines 109 and 115)
    are modelled by returning a list of `PrintEvent`s next to the new state:
    the engine otherwise only touches `grid` and `alive_cells`.
  * `terminal_size()` is an external input; `Game.new` therefore takes the
    number of rows and columns as explicit parameters (main.rs lines 40-48
    merely allocate an all-zero `h × w` grid from them).
-/

set_option maxRecDepth 4000

/-- The output of one `println!` in `update_state`: either the removal line
(`"remove {n}: {:?}"`, main.rs line 109) or the insertion line
(`"insert {n}: {:?}"`, main.rs line 115).  The printed length and debug text
are determined by the recorded list. -/
inductive PrintEvent where
  | removeLine : List (Nat × Nat) → PrintEvent
  | insertLine : List (Nat × Nat) → PrintEvent
deriving DecidableEq

/-- Helper for `unique`: drop the elements already seen, keeping first
occurrences (the behaviour of `itertools::unique`, main.rs line 87). -/
def uniqueAux {α : Type} [DecidableEq α] (seen : List α) : List α → List α
  | [] => []
  | x :: xs => if x ∈ seen then uniqueAux seen xs else x :: uniqueAux (x :: seen) xs

/-- `itertools::unique` (main.rs line 87): deduplicate, keeping the first
occurrence of each element, preserving order otherwise. -/
def unique {α : Type} [DecidableEq α] (l : List α) : List α := uniqueAux [] l

/-- Run a fallible function over a list, collecting the results in order;
`none` as soon as one call fails (models a loop whose body can panic). -/
def optMapM {α β : Type} (f : α → Option β) : List α → Option (List β)
  | [] => some []
  | a :: l => (f a).bind fun b => (optMapM f l).map fun r => b :: r

/-- Filter a list by a fallible predicate, keeping order and duplicates;
`none` as soon as one call fails (models a loop whose body can panic). -/
def optFilter {α : Type} (p : α → Option Bool) : List α → Option (List α)
  | [] => some []
  | a :: l => (p a).bind fun b => (optFilter p l).map fun r => if b then a :: r else r

/-- Reading `grid[row][col]`; `none` models Rust's index-out-of-bounds panic. -/
def cellVal (grid : List (List Nat)) (row col : Nat) : Option Nat :=
  (grid[row]?).bind fun r => r[col]?

/-- Writing `grid[row][col] = v`; `none` models the index panic. -/
def setCell (grid : List (List Nat)) (row col v : Nat) : Option (List (List Nat)) :=
  (grid[row]?).bind fun rowL =>
    if col < rowL.length then some (grid.set row (rowL.set col v)) else none

/-- A loop of grid writes `grid[c.0][c.1] = v`, one per coordinate. -/
def setAll (v : Nat) : List (Nat × Nat) → List (List Nat) → Option (List (List Nat))
  | [], grid => some grid
  | c :: cs, grid => (setCell grid c.1 c.2 v).bind fun g2 => setAll v cs g2

/-- The `Game` struct (main.rs lines 32-36): a grid of `u16` cell values
(`0` = dead, nonzero = alive) and the vector of live-cell coordinates. -/
structure Game where
  grid : List (List Nat)
  alive_cells : List (Nat × Nat)
deriving DecidableEq

/-- `Game::grid_size` (main.rs lines 56-58): `(grid.len(), grid[0].len())`;
the `grid[0]` access panics when the grid has no rows. -/
def Game.grid_size (g : Game) : Option (Nat × Nat) :=
  (g.grid[0]?).map fun r0 => (g.grid.length, r0.length)

/-- Number of grid rows (spec-side total helper). -/
def Game.rows (g : Game) : Nat := g.grid.length

/-- Number of grid columns, read off the first row (spec-side total helper;
`0` for an empty grid). -/
def Game.cols (g : Game) : Nat := (g.grid.headD []).length

/-- `Game::cell_value` (main.rs lines 218-220): `grid[row][col]`. -/
def Game.cell_value (g : Game) (row col : Nat) : Option Nat :=
  cellVal g.grid row col

/-- The eight guarded neighbour probes shared by
`Game::get_living_neighbours_count` (main.rs lines 124-169) and
`Game::get_dead_neighbours` (main.rs lines 171-216), in source order:
top-left, top, top-right, left, right, bottom-left, bottom, bottom-right.
Each entry is the guard under which the probe runs and the probed coordinate.
The guards transcribe the source conditions literally, including the
suspicious `col + 1 <= cols` / `row + 1 <= rows` bounds (the source's
`row > 0` blocks become conjunctions on the three entries they cover). -/
def nbrChecks (rows cols row col : Nat) : List (Bool × Nat × Nat) :=
  [ (decide (0 < row ∧ 0 < col),              (row - 1, col - 1)),
    (decide (0 < row),                        (row - 1, col)),
    (decide (0 < row ∧ col + 1 ≤ cols),       (row - 1, col + 1)),
    (decide (0 < col),                        (row, col - 1)),
    (decide (col + 1 ≤ cols),                 (row, col + 1)),
    (decide (row + 1 ≤ rows ∧ 0 < col),       (row + 1, col - 1)),
    (decide (row + 1 ≤ rows),                 (row + 1, col)),
    (decide (row + 1 ≤ rows ∧ col + 1 ≤ cols), (row + 1, col + 1)) ]

/-- The accumulation loop of `get_living_neighbours_count`: for each guarded
probe, read the cell when the guard holds and add `1` when its value is `1`. -/
def countChecks (g : Game) : List (Bool × Nat × Nat) → Option Nat
  | [] => some 0
  | ch :: rest =>
    if ch.1 then
      (g.cell_value ch.2.1 ch.2.2).bind fun v =>
        (countChecks g rest).map fun n => (if v = 1 then 1 else 0) + n
    else countChecks g rest

/-- The accumulation loop of `get_dead_neighbours`: for each guarded probe,
read the cell when the guard holds and record the coordinate when its value
is `0`. -/
def deadChecks (g : Game) : List (Bool × Nat × Nat) → Option (List (Nat × Nat))
  | [] => some []
  | ch :: rest =>
    if ch.1 then
      (g.cell_value ch.2.1 ch.2.2).bind fun v =>
        (deadChecks g rest).map fun r => if v = 0 then ch.2 :: r else r
    else deadChecks g rest

/-- `Game::get_living_neighbours_count` (main.rs lines 124-169). -/
def Game.get_living_neighbours_count (g : Game) (root : Nat × Nat) : Option Nat :=
  g.grid_size.bind fun sz => countChecks g (nbrChecks sz.1 sz.2 root.1 root.2)

/-- `Game::get_dead_neighbours` (main.rs lines 171-216). -/
def Game.get_dead_neighbours (g : Game) (root : Nat × Nat) : Option (List (Nat × Nat)) :=
  g.grid_size.bind fun sz => deadChecks g (nbrChecks sz.1 sz.2 root.1 root.2)

/-- `Game::populate` (main.rs lines 222-226): write `1` at every coordinate of
`alive_cells`. -/
def Game.populate (g : Game) : Option Game :=
  (setAll 1 g.alive_cells g.grid).map fun grid2 => { g with grid := grid2 }

/-- The removal loop of `update_state` (main.rs lines 110-113): for each `c`
in `to_remove`, delete every copy of `c` from `alive_cells` and write `0` to
`grid[c.0][c.1]` (the list update and the grid write touch different
structures, so they are performed together per iteration). -/
def removeLoop : List (Nat × Nat) → List (List Nat) → List (Nat × Nat) →
    Option (List (List Nat) × List (Nat × Nat))
  | [], grid, alive => some (grid, alive)
  | c :: cs, grid, alive =>
    (setCell grid c.1 c.2 0).bind fun grid2 =>
      removeLoop cs grid2 (alive.filter fun arr => arr ≠ c)

/-- The insertion loop of `update_state` (main.rs lines 116-119): for each `c`
in `to_insert`, push `c` onto `alive_cells` and write `1` to
`grid[c.0][c.1]`. -/
def insertLoop : List (Nat × Nat) → List (List Nat) → List (Nat × Nat) →
    Option (List (List Nat) × List (Nat × Nat))
  | [], grid, alive => some (grid, alive)
  | c :: cs, grid, alive =>
    (setCell grid c.1 c.2 1).bind fun grid2 =>
      insertLoop cs grid2 (alive ++ [c])

/-- `Game::update_state` (main.rs lines 76-122), the engine's `step()`:
collect the dead neighbours of every live cell, deduplicate them, evaluate
births (`count == 3`) on the candidates and deaths (`count < 2 || count > 3`)
on the live cells — all counts against the unmodified generation-N state —
then commit removals, then insertions, and finally `populate`.  The returned
list records the two diagnostic `println!` lines (main.rs lines 109, 115). -/
def Game.update_state (g : Game) : Option (Game × List PrintEvent) :=
  (optMapM g.get_dead_neighbours g.alive_cells).bind fun deadLists =>
  (optFilter (fun c => (g.get_living_neighbours_count c).map fun n => decide (n = 3))
      (unique deadLists.flatten)).bind fun to_insert =>
  (optFilter (fun c => (g.get_living_neighbours_count c).map fun n => decide (n < 2 ∨ 3 < n))
      g.alive_cells).bind fun to_remove =>
  (removeLoop to_remove g.grid g.alive_cells).bind fun st1 =>
  (insertLoop to_insert st1.1 st1.2).bind fun st2 =>
  (Game.populate { grid := st2.1, alive_cells := st2.2 }).map fun g3 =>
  (g3, [PrintEvent.removeLine to_remove, PrintEvent.insertLine to_insert])

/-- The new state produced by one `step()`, without the diagnostic output. -/
def Game.step (g : Game) : Option Game :=
  g.update_state.map fun p => p.1

/-- Iterate `step()` `n` times. -/
def Game.stepN : Nat → Game → Option Game
  | 0, g => some g
  | n + 1, g => g.step.bind fun g2 => Game.stepN n g2

/-- `Game::new` (main.rs lines 39-54) with the terminal dimensions passed in
as parameters: an all-zero `rows × cols` grid, `alive_cells` set to the seed,
then `populate` (which panics on an out-of-range seed coordinate). -/
def Game.new (seed : List (Nat × Nat)) (rows cols : Nat) : Option Game :=
  Game.populate { grid := List.replicate rows (List.replicate cols 0), alive_cells := seed }

/-- Construct a game from a seed and run `n` steps. -/
def runGame (seed : List (Nat × Nat)) (rows cols n : Nat) : Option Game :=
  (Game.new seed rows cols).bind fun g => g.stepN n

/-- `ALIVE` glyph (main.rs line 24). -/
def ALIVE : Char := '█'

/-- `DEAD` glyph (main.rs line 25). -/
def DEAD : Char := '░'

/-- The glyph printed for one cell value (main.rs lines 65-69). -/
def glyph (v : Nat) : String :=
  String.singleton (if v = 0 then DEAD else ALIVE)

/-- The inner loop of `Game::render` (main.rs lines 64-70): print the glyphs
of row `i`, columns `j, j+1, …` (`n` of them), appended to `acc`. -/
def renderRowFrom (g : Game) (i j n : Nat) (acc : String) : Option String :=
  match n with
  | 0 => some acc
  | n + 1 => (g.cell_value i j).bind fun v => renderRowFrom g i (j + 1) n (acc ++ glyph v)

/-- The outer loop of `Game::render` (main.rs lines 63-74): print rows
`i, i+1, …` (`n` of them), with a newline after every row except the last
(`i < rows - 1`). -/
def renderRows (g : Game) (rows cols i n : Nat) (acc : String) : Option String :=
  match n with
  | 0 => some acc
  | n + 1 =>
    (renderRowFrom g i 0 cols acc).bind fun rowOut =>
      renderRows g rows cols (i + 1) n (if i < rows - 1 then rowOut ++ "\n" else rowOut)

/-- `Game::render` (main.rs lines 60-75), with the printed stream returned as
a string (`render` reads the state and produces output only). -/
def Game.render (g : Game) : Option String :=
  g.grid_size.bind fun sz => renderRows g sz.1 sz.2 0 sz.1 ""

/-- Expected text of one rendered row: one glyph per cell, in order. -/
def rowStr : List Nat → String
  | [] => ""
  | v :: rest => glyph v ++ rowStr rest

/-- Expected text of the full rendered grid: rows in order, a newline between
consecutive rows and none after the last. -/
def gridStr : List (List Nat) → String
  | [] => ""
  | [r] => rowStr r
  | r :: r2 :: rs => rowStr r ++ "\n" ++ gridStr (r2 :: rs)

/-- Specification-side 8-neighbourhood (spec.md section 4.1, "Neighbor
counting"): distinct coordinates whose rows and columns each differ by at
most one. -/
def Adjacent (p q : Nat × Nat) : Prop :=
  p ≠ q ∧ p.1 ≤ q.1 + 1 ∧ q.1 ≤ p.1 + 1 ∧ p.2 ≤ q.2 + 1 ∧ q.2 ≤ p.2 + 1

instance (p q : Nat × Nat) : Decidable (Adjacent p q) :=
  inferInstanceAs (Decidable (p ≠ q ∧ p.1 ≤ q.1 + 1 ∧ q.1 ≤ p.1 + 1 ∧ p.2 ≤ q.2 + 1 ∧ q.2 ≤ p.2 + 1))

/-- Specification-side live-neighbour count of `p`, written from the spec's
words (spec.md sections 4.1 and 8), for refinement comparison with the code's
`get_living_neighbours_count`: the number of distinct live cells adjacent to
`p` (duplicates in the live list do not count twice). -/
def specLiveCount (alive : List (Nat × Nat)) (p : Nat × Nat) : Nat :=
  alive.dedup.countP fun q => decide (Adjacent p q)

/-- Specification-side generation-N+1 membership, written from the spec's
words (spec.md section 4.1, `step()` items 2-3): a live cell survives with 2
or 3 live neighbours; a dead in-grid cell is born with exactly 3 live
neighbours; everything is evaluated against the generation-N live set. -/
def golNext (rows cols : Nat) (alive : List (Nat × Nat)) (p : Nat × Nat) : Prop :=
  (p ∈ alive ∧ (specLiveCount alive p = 2 ∨ specLiveCount alive p = 3)) ∨
  (p.1 < rows ∧ p.2 < cols ∧ p ∉ alive ∧ specLiveCount alive p = 3)

/-- The grid is rectangular: every row has `cols` entries. -/
def Game.Rect (g : Game) : Prop :=
  ∀ (i : Nat) (row : List Nat), g.grid[i]? = some row → row.length = g.cols

/-- Every stored cell value is `0` or `1`. -/
def Game.Binary (g : Game) : Prop :=
  ∀ r c v, g.cell_value r c = some v → v = 0 ∨ v = 1

/-- Grid and LiveSet agree (spec.md section 8, "Invariant"): a cell holds `1`
exactly when its coordinate is in `alive_cells`. -/
def Game.Agrees (g : Game) : Prop :=
  ∀ r c, g.cell_value r c = some 1 ↔ (r, c) ∈ g.alive_cells

/-- Well-formed engine state: rectangular 0/1 grid agreeing with the live
list. -/
def Game.Wf (g : Game) : Prop :=
  g.Rect ∧ g.Binary ∧ g.Agrees

/-- Two lists denote the same set of elements. -/
def EqSet {α : Type} (l1 l2 : List α) : Prop :=
  ∀ x, x ∈ l1 ↔ x ∈ l2

/-- Executable rectangularity check (used to discharge `Rect` on concrete
states). -/
def Game.rectCheck (g : Game) : Bool :=
  g.grid.all fun row => row.length == g.cols

/-- Executable well-formedness check (used to discharge `Wf` on concrete
states). -/
def Game.wfCheck (g : Game) : Bool :=
  (g.grid.all fun row => row.length == g.cols) &&
  (g.grid.all fun row => row.all fun v => v == 0 || v == 1) &&
  (g.alive_cells.all fun p => g.cell_value p.1 p.2 == some 1) &&
  ((List.range g.rows).all fun r => (List.range g.cols).all fun c =>
    (g.cell_value r c == some 1) == decide ((r, c) ∈ g.alive_cells))

/-! Concrete example states, used below to evaluate the theorems on real
inputs. -/

/-- A 5x5 board holding a 2x2 block still life. -/
def blockGame : Game :=
  { grid := [[0, 0, 0, 0, 0], [0, 1, 1, 0, 0], [0, 1, 1, 0, 0],
             [0, 0, 0, 0, 0], [0, 0, 0, 0, 0]],
    alive_cells := [(1, 1), (1, 2), (2, 1), (2, 2)] }

/-- A 5x6 board holding a horizontal blinker on row 1, columns 1-3. -/
def blinkerGame : Game :=
  { grid := [[0, 0, 0, 0, 0, 0], [0, 1, 1, 1, 0, 0], [0, 0, 0, 0, 0, 0],
             [0, 0, 0, 0, 0, 0], [0, 0, 0, 0, 0, 0]],
    alive_cells := [(1, 1), (1, 2), (1, 3)] }

/-- The vertical state one `step()` produces from `blinkerGame`. -/
def blinkerGameV : Game :=
  { grid := [[0, 0, 1, 0, 0, 0], [0, 0, 1, 0, 0, 0], [0, 0, 1, 0, 0, 0],
             [0, 0, 0, 0, 0, 0], [0, 0, 0, 0, 0, 0]],
    alive_cells := [(1, 2), (0, 2), (2, 2)] }

/-- The state two `step()` calls produce from `blinkerGame`: the original
grid, with the live list in a different order. -/
def blinkerGame2 : Game :=
  { grid := [[0, 0, 0, 0, 0, 0], [0, 1, 1, 1, 0, 0], [0, 0, 0, 0, 0, 0],
             [0, 0, 0, 0, 0, 0], [0, 0, 0, 0, 0, 0]],
    alive_cells := [(1, 2), (1, 1), (1, 3)] }

/-- A 4x4 board with a single live cell at (1, 1). -/
def singleGame : Game :=
  { grid := [[0, 0, 0, 0], [0, 1, 0, 0], [0, 0, 0, 0], [0, 0, 0, 0]],
    alive_cells := [(1, 1)] }

/-- The all-dead 4x4 board. -/
def deadGame : Game :=
  { grid := [[0, 0, 0, 0], [0, 0, 0, 0], [0, 0, 0, 0], [0, 0, 0, 0]],
    alive_cells := [] }

/-- A 4x9 board whose live cells form a horizontal blinker on row 2,
columns 3-5: every neighbour of every live cell lies inside the grid. -/
def blinker49 : Game :=
  { grid := [[0, 0, 0, 0, 0, 0, 0, 0, 0], [0, 0, 0, 0, 0, 0, 0, 0, 0],
             [0, 0, 0, 1, 1, 1, 0, 0, 0], [0, 0, 0, 0, 0, 0, 0, 0, 0]],
    alive_cells := [(2, 3), (2, 4), (2, 5)] }

/-! Utility lemmas about the list and grid helpers. -/

theorem mem_uniqueAux {α : Type} [DecidableEq α] (l : List α) :
    ∀ (seen : List α) (x : α), x ∈ uniqueAux seen l ↔ x ∈ l ∧ x ∉ seen := by
  induction l with
  | nil => intro seen x; simp [uniqueAux]
  | cons a l ih =>
    intro seen x
    by_cases ha : a ∈ seen
    · rw [uniqueAux, if_pos ha, ih]
      constructor
      · rintro ⟨h1, h2⟩; exact ⟨List.mem_cons_of_mem a h1, h2⟩
      · rintro ⟨h1, h2⟩
        rcases List.mem_cons.mp h1 with rfl | h1
        · exact absurd ha h2
        · exact ⟨h1, h2⟩
    · rw [uniqueAux, if_neg ha, List.mem_cons, ih]
      constructor
      · rintro (rfl | ⟨h1, h2⟩)
        · exact ⟨List.mem_cons_self x l, ha⟩
        · refine ⟨List.mem_cons_of_mem a h1, fun hx => h2 (List.mem_cons_of_mem a hx)⟩
      · rintro ⟨h1, h2⟩
        rcases List.mem_cons.mp h1 with rfl | h1
        · exact Or.inl rfl
        · by_cases hxa : x = a
          · exact Or.inl hxa
          · refine Or.inr ⟨h1, fun hx => ?_⟩
            rcases List.mem_cons.mp hx with rfl | hx
            · exact hxa rfl
            · exact h2 hx

theorem mem_unique {α : Type} [DecidableEq α] (l : List α) (x : α) :
    x ∈ unique l ↔ x ∈ l := by
  rw [unique, mem_uniqueAux]; simp

theorem optMapM_isSome_elem {α β : Type} {f : α → Option β} {l : List α} {L : List β}
    (h : optMapM f l = some L) : ∀ a ∈ l, (f a).isSome := by
  induction l generalizing L with
  | nil => simp
  | cons a l ih =>
    simp only [optMapM, Option.bind_eq_some, Option.map_eq_some'] at h
    obtain ⟨b, hb, r, hr, rfl⟩ := h
    intro x hx
    rcases List.mem_cons.mp hx with rfl | hx
    · simp [hb]
    · exact ih hr x hx

theorem optMapM_isSome_of {α β : Type} {f : α → Option β} {l : List α}
    (h : ∀ a ∈ l, (f a).isSome) : (optMapM f l).isSome := by
  induction l with
  | nil => simp [optMapM]
  | cons a l ih =>
    obtain ⟨b, hb⟩ := Option.isSome_iff_exists.mp (h a (List.mem_cons_self a l))
    obtain ⟨r, hr⟩ := Option.isSome_iff_exists.mp (ih fun x hx => h x (List.mem_cons_of_mem a hx))
    simp [optMapM, hb, hr]

theorem optMapM_flatten_mem {α β : Type} {f : α → Option (List β)} {l : List α}
    {L : List (List β)} (h : optMapM f l = some L) (q : β) :
    q ∈ L.flatten ↔ ∃ a ∈ l, ∃ la, f a = some la ∧ q ∈ la := by
  induction l generalizing L with
  | nil =>
    simp only [optMapM, Option.some.injEq] at h
    subst h; simp
  | cons a l ih =>
    simp only [optMapM, Option.bind_eq_some, Option.map_eq_some'] at h
    obtain ⟨b, hb, r, hr, rfl⟩ := h
    rw [List.flatten_cons, List.mem_append, ih hr]
    constructor
    · rintro (hq | ⟨a2, ha2, la, hla, hq⟩)
      · exact ⟨a, List.mem_cons_self a l, b, hb, hq⟩
      · exact ⟨a2, List.mem_cons_of_mem a ha2, la, hla, hq⟩
    · rintro ⟨a2, ha2, la, hla, hq⟩
      rcases List.mem_cons.mp ha2 with rfl | ha2
      · rw [hb] at hla
        exact Or.inl (Option.some.inj hla ▸ hq)
      · exact Or.inr ⟨a2, ha2, la, hla, hq⟩

theorem optFilter_isSome_elem {α : Type} {p : α → Option Bool} {l r : List α}
    (h : optFilter p l = some r) : ∀ a ∈ l, (p a).isSome := by
  induction l generalizing r with
  | nil => simp
  | cons a l ih =>
    simp only [optFilter, Option.bind_eq_some, Option.map_eq_some'] at h
    obtain ⟨b, hb, r2, hr2, rfl⟩ := h
    intro x hx
    rcases List.mem_cons.mp hx with rfl | hx
    · simp [hb]
    · exact ih hr2 x hx

theorem optFilter_isSome_of {α : Type} {p : α → Option Bool} {l : List α}
    (h : ∀ a ∈ l, (p a).isSome) : (optFilter p l).isSome := by
  induction l with
  | nil => simp [optFilter]
  | cons a l ih =>
    obtain ⟨b, hb⟩ := Option.isSome_iff_exists.mp (h a (List.mem_cons_self a l))
    obtain ⟨r, hr⟩ := Option.isSome_iff_exists.mp (ih fun x hx => h x (List.mem_cons_of_mem a hx))
    simp [optFilter, hb, hr]

theorem optFilter_mem {α : Type} {p : α → Option Bool} {l r : List α}
    (h : optFilter p l = some r) (x : α) :
    x ∈ r ↔ x ∈ l ∧ p x = some true := by
  induction l generalizing r with
  | nil =>
    simp only [optFilter, Option.some.injEq] at h
    subst h; simp
  | cons a l ih =>
    simp only [optFilter, Option.bind_eq_some, Option.map_eq_some'] at h
    obtain ⟨b, hb, r2, hr2, rfl⟩ := h
    rw [List.mem_cons]
    cases b with
    | true =>
      rw [if_pos rfl, List.mem_cons, ih hr2]
      constructor
      · rintro (rfl | ⟨h1, h2⟩)
        · exact ⟨Or.inl rfl, hb⟩
        · exact ⟨Or.inr h1, h2⟩
      · rintro ⟨rfl | h1, h2⟩
        · exact Or.inl rfl
        · exact Or.inr ⟨h1, h2⟩
    | false =>
      rw [if_neg (by simp), ih hr2]
      constructor
      · rintro ⟨h1, h2⟩; exact ⟨Or.inr h1, h2⟩
      · rintro ⟨rfl | h1, h2⟩
        · rw [hb] at h2; cases h2
        · exact ⟨h1, h2⟩

theorem cellVal_some_bounds {grid : List (List Nat)} {r c v : Nat}
    (h : cellVal grid r c = some v) :
    ∃ row, grid[r]? = some row ∧ r < grid.length ∧ c < row.length := by
  simp only [cellVal, Option.bind_eq_some] at h
  obtain ⟨row, hrow, hv⟩ := h
  obtain ⟨hr, _⟩ := List.getElem?_eq_some.mp hrow
  obtain ⟨hc, _⟩ := List.getElem?_eq_some.mp hv
  exact ⟨row, hrow, hr, hc⟩

theorem grid_mem_of_getElem {grid : List (List Nat)} {i : Nat} {row : List Nat}
    (h : grid[i]? = some row) : row ∈ grid := by
  obtain ⟨hi, hrow⟩ := List.getElem?_eq_some.mp h
  exact hrow ▸ List.getElem_mem hi

theorem Game.cell_value_isSome_iff {g : Game} (hR : g.Rect) (r c : Nat) :
    (g.cell_value r c).isSome ↔ r < g.rows ∧ c < g.cols := by
  constructor
  · intro h
    obtain ⟨v, hv⟩ := Option.isSome_iff_exists.mp h
    obtain ⟨row, hrow, hr, hc⟩ := cellVal_some_bounds hv
    exact ⟨hr, hR r row hrow ▸ hc⟩
  · rintro ⟨hr, hc⟩
    have hrow : g.grid[r]? = some g.grid[r] := List.getElem?_eq_getElem hr
    have hlen : g.grid[r].length = g.cols := hR r _ hrow
    rw [Game.cell_value, cellVal, hrow, Option.some_bind]
    rw [Option.isSome_iff_exists]
    exact ⟨_, List.getElem?_eq_getElem (hlen ▸ hc)⟩

theorem setCell_isSome_iff {grid : List (List Nat)} {r c v : Nat} :
    (setCell grid r c v).isSome ↔ (cellVal grid r c).isSome := by
  rw [setCell, cellVal]
  cases h : grid[r]? with
  | none => simp
  | some row =>
    simp only [Option.some_bind]
    constructor
    · intro hs
      by_cases hc : c < row.length
      · rw [Option.isSome_iff_exists]
        exact ⟨_, List.getElem?_eq_getElem hc⟩
      · simp [hc] at hs
    · intro hs
      obtain ⟨w, hw⟩ := Option.isSome_iff_exists.mp hs
      obtain ⟨hc, _⟩ := List.getElem?_eq_some.mp hw
      simp [hc]

theorem setCell_cellVal {grid : List (List Nat)} {r c v : Nat} {grid2 : List (List Nat)}
    (h : setCell grid r c v = some grid2) (r' c' : Nat) :
    cellVal grid2 r' c' = if r' = r ∧ c' = c then some v else cellVal grid r' c' := by
  rw [setCell] at h
  cases hrow : grid[r]? with
  | none => rw [hrow] at h; cases h
  | some row =>
    rw [hrow, Option.some_bind] at h
    by_cases hc : c < row.length
    · rw [if_pos hc] at h
      have hg2 : grid2 = grid.set r (row.set c v) := (Option.some.inj h).symm
      have hrlen : r < grid.length := (List.getElem?_eq_some.mp hrow).1
      rw [hg2, cellVal, List.getElem?_set]
      by_cases hr : r = r'
      · rw [if_pos hr, if_pos (hr ▸ hrlen), Option.some_bind, List.getElem?_set]
        by_cases hcc : c = c'
        · rw [if_pos hcc, if_pos (hcc ▸ hc), if_pos ⟨hr.symm, hcc.symm⟩]
        · rw [if_neg hcc, if_neg (fun hx => hcc hx.2.symm), cellVal, ← hr, hrow,
            Option.some_bind]
      · rw [if_neg hr, if_neg (fun hx => hr hx.1.symm), cellVal]
    · rw [if_neg hc] at h; cases h

theorem setCell_shape {grid : List (List Nat)} {r c v : Nat} {grid2 : List (List Nat)}
    (h : setCell grid r c v = some grid2) :
    grid2.length = grid.length ∧
      ∀ (i : Nat), (grid2[i]?).map (fun (row : List Nat) => row.length) = (grid[i]?).map (fun (row : List Nat) => row.length) := by
  rw [setCell] at h
  cases hrow : grid[r]? with
  | none => rw [hrow] at h; cases h
  | some row =>
    rw [hrow, Option.some_bind] at h
    by_cases hc : c < row.length
    · rw [if_pos hc] at h
      have hg2 : grid2 = grid.set r (row.set c v) := (Option.some.inj h).symm
      have hrlen : r < grid.length := (List.getElem?_eq_some.mp hrow).1
      subst hg2
      refine ⟨List.length_set grid r _, fun i => ?_⟩
      rw [List.getElem?_set]
      by_cases hr : r = i
      · rw [if_pos hr, if_pos (hr ▸ hrlen), ← hr, hrow]
        simp [List.length_set]
      · rw [if_neg hr]
    · rw [if_neg hc] at h; cases h

theorem cellVal_isSome_congr {g1 g2 : List (List Nat)}
    (hs : ∀ (i : Nat), (g2[i]?).map (fun (row : List Nat) => row.length) = (g1[i]?).map (fun (row : List Nat) => row.length))
    (r c : Nat) :
    (cellVal g2 r c).isSome ↔ (cellVal g1 r c).isSome := by
  have hr := hs r
  rw [cellVal, cellVal]
  cases h1 : g1[r]? with
  | none =>
    rw [h1] at hr
    cases h2 : g2[r]? with
    | none => simp
    | some row2 => rw [h2] at hr; cases hr
  | some row1 =>
    rw [h1] at hr
    cases h2 : g2[r]? with
    | none => rw [h2] at hr; cases hr
    | some row2 =>
      rw [h2] at hr
      have hlen : row2.length = row1.length := by simpa using hr
      simp only [Option.some_bind]
      constructor
      · intro h
        obtain ⟨w, hw⟩ := Option.isSome_iff_exists.mp h
        obtain ⟨hcl, _⟩ := List.getElem?_eq_some.mp hw
        exact Option.isSome_iff_exists.mpr ⟨_, List.getElem?_eq_getElem (by omega)⟩
      · intro h
        obtain ⟨w, hw⟩ := Option.isSome_iff_exists.mp h
        obtain ⟨hcl, _⟩ := List.getElem?_eq_some.mp hw
        exact Option.isSome_iff_exists.mpr ⟨_, List.getElem?_eq_getElem (by omega)⟩

theorem setAll_shape {v : Nat} {cs : List (Nat × Nat)} :
    ∀ {grid grid2 : List (List Nat)}, setAll v cs grid = some grid2 →
      grid2.length = grid.length ∧
        ∀ (i : Nat), (grid2[i]?).map (fun (row : List Nat) => row.length) = (grid[i]?).map (fun (row : List Nat) => row.length) := by
  induction cs with
  | nil =>
    intro grid grid2 h
    simp only [setAll, Option.some.injEq] at h
    subst h; exact ⟨rfl, fun i => rfl⟩
  | cons a cs ih =>
    intro grid grid2 h
    simp only [setAll, Option.bind_eq_some] at h
    obtain ⟨gmid, hmid, hrest⟩ := h
    obtain ⟨hl1, hs1⟩ := setCell_shape hmid
    obtain ⟨hl2, hs2⟩ := ih hrest
    exact ⟨hl2.trans hl1, fun i => (hs2 i).trans (hs1 i)⟩

theorem setAll_cellVal {v : Nat} {cs : List (Nat × Nat)} :
    ∀ {grid grid2 : List (List Nat)}, setAll v cs grid = some grid2 →
      ∀ r c, cellVal grid2 r c =
        if (r, c) ∈ cs ∧ (cellVal grid r c).isSome then some v else cellVal grid r c := by
  induction cs with
  | nil =>
    intro grid grid2 h r c
    simp only [setAll, Option.some.injEq] at h
    subst h; simp
  | cons a cs ih =>
    intro grid grid2 h r c
    simp only [setAll, Option.bind_eq_some] at h
    obtain ⟨gmid, hmid, hrest⟩ := h
    have hmidval := setCell_cellVal hmid r c
    have hsome : (cellVal gmid r c).isSome ↔ (cellVal grid r c).isSome :=
      cellVal_isSome_congr (setCell_shape hmid).2 r c
    rw [ih hrest r c]
    by_cases hra : r = a.1 ∧ c = a.2
    · obtain ⟨h1, h2⟩ := hra
      subst h1; subst h2
      have hsc : (setCell grid a.1 a.2 v).isSome := by rw [hmid]; rfl
      have hgs : (cellVal grid a.1 a.2).isSome := setCell_isSome_iff.mp hsc
      have hmv : cellVal gmid a.1 a.2 = some v := by
        rw [hmidval]; exact if_pos ⟨rfl, rfl⟩
      have hmem : ((a.1, a.2) : Nat × Nat) ∈ a :: cs := by
        rw [Prod.mk.eta]; exact List.mem_cons_self a cs
      by_cases hcs : (a.1, a.2) ∈ cs ∧ (cellVal gmid a.1 a.2).isSome
      · rw [if_pos hcs, if_pos ⟨hmem, hgs⟩]
      · rw [if_neg hcs, hmv, if_pos ⟨hmem, hgs⟩]
    · have hmv : cellVal gmid r c = cellVal grid r c := by rw [hmidval, if_neg hra]
      have hmem : ((r, c) ∈ a :: cs) ↔ ((r, c) ∈ cs) := by
        rw [List.mem_cons]
        constructor
        · rintro (he | hm)
          · exact absurd ⟨congrArg Prod.fst he, congrArg Prod.snd he⟩ hra
          · exact hm
        · exact Or.inr
      rw [hmv]
      exact if_congr (and_congr_left fun _ => hmem.symm) rfl rfl

theorem setAll_isSome_iff {v : Nat} {cs : List (Nat × Nat)} :
    ∀ {grid : List (List Nat)},
      (setAll v cs grid).isSome ↔ ∀ p ∈ cs, (cellVal grid p.1 p.2).isSome := by
  induction cs with
  | nil => intro grid; simp [setAll]
  | cons a cs ih =>
    intro grid
    rw [setAll]
    cases hmid : setCell grid a.1 a.2 v with
    | none =>
      have hns : ¬(cellVal grid a.1 a.2).isSome := by
        rw [← @setCell_isSome_iff grid a.1 a.2 v, hmid]; simp
      simp only [Option.none_bind]
      constructor
      · intro h; cases h
      · intro h
        exact absurd (h a (List.mem_cons_self a cs)) hns
    | some gmid =>
      have hgs : (cellVal grid a.1 a.2).isSome := by
        rw [← @setCell_isSome_iff grid a.1 a.2 v, hmid]; rfl
      have hcongr := cellVal_isSome_congr (setCell_shape hmid).2
      rw [Option.some_bind, ih]
      constructor
      · intro h p hp
        rcases List.mem_cons.mp hp with rfl | hp
        · exact hgs
        · exact (hcongr p.1 p.2).mp (h p hp)
      · intro h p hp
        exact (hcongr p.1 p.2).mpr (h p (List.mem_cons_of_mem a hp))

theorem removeLoop_eq {cs : List (Nat × Nat)} :
    ∀ {grid : List (List Nat)} {alive : List (Nat × Nat)}
      {st : List (List Nat) × List (Nat × Nat)},
      removeLoop cs grid alive = some st →
        setAll 0 cs grid = some st.1 ∧
          st.2 = cs.foldl (fun ac c => ac.filter fun arr => arr ≠ c) alive := by
  induction cs with
  | nil =>
    intro grid alive st h
    simp only [removeLoop, Option.some.injEq] at h
    subst h
    exact ⟨rfl, rfl⟩
  | cons a cs ih =>
    intro grid alive st h
    simp only [removeLoop, Option.bind_eq_some] at h
    obtain ⟨gmid, hmid, hrest⟩ := h
    obtain ⟨h1, h2⟩ := ih hrest
    refine ⟨?_, ?_⟩
    · rw [setAll, hmid, Option.some_bind]; exact h1
    · rw [List.foldl_cons]; exact h2

theorem removeLoop_isSome {cs : List (Nat × Nat)} :
    ∀ {grid : List (List Nat)} {alive : List (Nat × Nat)},
      (setAll 0 cs grid).isSome → (removeLoop cs grid alive).isSome := by
  induction cs with
  | nil => intro grid alive _; rfl
  | cons a cs ih =>
    intro grid alive h
    rw [setAll] at h
    cases hmid : setCell grid a.1 a.2 0 with
    | none => rw [hmid] at h; cases h
    | some gmid =>
      rw [hmid, Option.some_bind] at h
      rw [removeLoop, hmid, Option.some_bind]
      exact ih h

theorem insertLoop_eq {cs : List (Nat × Nat)} :
    ∀ {grid : List (List Nat)} {alive : List (Nat × Nat)}
      {st : List (List Nat) × List (Nat × Nat)},
      insertLoop cs grid alive = some st →
        setAll 1 cs grid = some st.1 ∧ st.2 = alive ++ cs := by
  induction cs with
  | nil =>
    intro grid alive st h
    simp only [insertLoop, Option.some.injEq] at h
    subst h
    exact ⟨rfl, by simp⟩
  | cons a cs ih =>
    intro grid alive st h
    simp only [insertLoop, Option.bind_eq_some] at h
    obtain ⟨gmid, hmid, hrest⟩ := h
    obtain ⟨h1, h2⟩ := ih hrest
    refine ⟨?_, ?_⟩
    · rw [setAll, hmid, Option.some_bind]; exact h1
    · rw [h2, List.append_assoc, List.singleton_append]

theorem insertLoop_isSome {cs : List (Nat × Nat)} :
    ∀ {grid : List (List Nat)} {alive : List (Nat × Nat)},
      (setAll 1 cs grid).isSome → (insertLoop cs grid alive).isSome := by
  induction cs with
  | nil => intro grid alive _; rfl
  | cons a cs ih =>
    intro grid alive h
    rw [setAll] at h
    cases hmid : setCell grid a.1 a.2 1 with
    | none => rw [hmid] at h; cases h
    | some gmid =>
      rw [hmid, Option.some_bind] at h
      rw [insertLoop, hmid, Option.some_bind]
      exact ih h

theorem mem_foldl_filter {cs : List (Nat × Nat)} :
    ∀ {alive : List (Nat × Nat)} {x : Nat × Nat},
      x ∈ cs.foldl (fun ac c => ac.filter fun arr => arr ≠ c) alive ↔ x ∈ alive ∧ x ∉ cs := by
  induction cs with
  | nil => intro alive x; simp
  | cons a cs ih =>
    intro alive x
    rw [List.foldl_cons, ih, List.mem_filter, List.mem_cons]
    constructor
    · rintro ⟨⟨h1, h2⟩, h3⟩
      refine ⟨h1, fun hx => ?_⟩
      rcases hx with rfl | hx
      · simp at h2
      · exact h3 hx
    · rintro ⟨h1, h2⟩
      refine ⟨⟨h1, ?_⟩, fun hx => h2 (Or.inr hx)⟩
      simpa using fun he => h2 (Or.inl he)

theorem grid_size_some {g : Game} (h : 0 < g.rows) :
    g.grid_size = some (g.rows, g.cols) := by
  rw [Game.grid_size]
  cases hg : g.grid with
  | nil => rw [Game.rows, hg] at h; cases h
  | cons r0 rest =>
    simp [Game.rows, Game.cols, hg]

theorem grid_size_none {g : Game} (h : g.grid = []) : g.grid_size = none := by
  rw [Game.grid_size, h]; rfl

theorem countChecks_some {g : Game} {checks : List (Bool × Nat × Nat)} {n : Nat}
    (h : countChecks g checks = some n) :
    (∀ ch ∈ checks, ch.1 = true → (g.cell_value ch.2.1 ch.2.2).isSome) ∧
      n = checks.countP fun ch => ch.1 && (g.cell_value ch.2.1 ch.2.2 == some 1) := by
  induction checks generalizing n with
  | nil =>
    simp only [countChecks, Option.some.injEq] at h
    subst h; simp
  | cons ch rest ih =>
    rw [countChecks] at h
    by_cases hg : ch.1 = true
    · rw [if_pos hg] at h
      simp only [Option.bind_eq_some, Option.map_eq_some'] at h
      obtain ⟨v, hv, m, hm, hn⟩ := h
      obtain ⟨hreads, hcount⟩ := ih hm
      constructor
      · intro ch2 hch2 hg2
        rcases List.mem_cons.mp hch2 with rfl | hch2
        · rw [hv]; rfl
        · exact hreads ch2 hch2 hg2
      · rw [List.countP_cons]
        subst hcount; subst hn
        rw [hg, hv]
        simp only [Bool.true_and]
        by_cases h1 : v = 1
        · subst h1; simp [Nat.add_comm]
        · have hb : ((some v == some 1) : Bool) = false := by simp [h1]
          rw [hb]
          simp [h1]
    · rw [if_neg hg] at h
      obtain ⟨hreads, hcount⟩ := ih h
      constructor
      · intro ch2 hch2 hg2
        rcases List.mem_cons.mp hch2 with rfl | hch2
        · exact absurd hg2 hg
        · exact hreads ch2 hch2 hg2
      · rw [List.countP_cons, hcount, Bool.eq_false_iff.mpr hg]
        simp

theorem deadChecks_some {g : Game} {checks : List (Bool × Nat × Nat)}
    {l : List (Nat × Nat)} (h : deadChecks g checks = some l) :
    (∀ ch ∈ checks, ch.1 = true → (g.cell_value ch.2.1 ch.2.2).isSome) ∧
      l = (checks.filter fun ch => ch.1 && (g.cell_value ch.2.1 ch.2.2 == some 0)).map
            fun ch => ch.2 := by
  induction checks generalizing l with
  | nil =>
    simp only [deadChecks, Option.some.injEq] at h
    subst h; simp
  | cons ch rest ih =>
    rw [deadChecks] at h
    by_cases hg : ch.1 = true
    · rw [if_pos hg] at h
      simp only [Option.bind_eq_some, Option.map_eq_some'] at h
      obtain ⟨v, hv, r, hr, hl⟩ := h
      obtain ⟨hreads, hrest⟩ := ih hr
      constructor
      · intro ch2 hch2 hg2
        rcases List.mem_cons.mp hch2 with rfl | hch2
        · rw [hv]; rfl
        · exact hreads ch2 hch2 hg2
      · rw [List.filter_cons]
        subst hrest; subst hl
        rw [hg, hv]
        simp only [Bool.true_and]
        by_cases h0 : v = 0
        · subst h0; simp
        · have hb : ((some v == some 0) : Bool) = false := by simp [h0]
          rw [hb]
          simp [h0]
    · rw [if_neg hg] at h
      obtain ⟨hreads, hrest⟩ := ih h
      constructor
      · intro ch2 hch2 hg2
        rcases List.mem_cons.mp hch2 with rfl | hch2
        · exact absurd hg2 hg
        · exact hreads ch2 hch2 hg2
      · rw [List.filter_cons, hrest, Bool.eq_false_iff.mpr hg]
        simp

theorem adjacent_iff {p q : Nat × Nat} :
    Adjacent p q ↔
      (¬(p.1 = q.1 ∧ p.2 = q.2) ∧
        p.1 ≤ q.1 + 1 ∧ q.1 ≤ p.1 + 1 ∧ p.2 ≤ q.2 + 1 ∧ q.2 ≤ p.2 + 1) := by
  unfold Adjacent
  rw [Ne, Prod.ext_iff]

theorem adjacent_symm {p q : Nat × Nat} (h : Adjacent p q) : Adjacent q p := by
  rw [adjacent_iff] at h ⊢
  omega

theorem nbrChecks_pairwise (rows cols row col : Nat) :
    (nbrChecks rows cols row col).Pairwise
      (fun a b => a.1 = true → b.1 = true → a.2 ≠ b.2) := by
  unfold nbrChecks
  refine List.Pairwise.cons ?_ (List.Pairwise.cons ?_ (List.Pairwise.cons ?_
    (List.Pairwise.cons ?_ (List.Pairwise.cons ?_ (List.Pairwise.cons ?_
    (List.Pairwise.cons ?_ (List.Pairwise.cons ?_ List.Pairwise.nil))))))) <;>
  · intro a' ha'
    fin_cases ha' <;>
    · intro h1 h2
      dsimp only at h1 h2 ⊢
      have g1 := of_decide_eq_true h1
      have g2 := of_decide_eq_true h2
      simp only [Ne, Prod.mk.injEq]
      omega

theorem nbrChecks_filter_map_nodup (rows cols row col : Nat) (p : Nat × Nat → Bool) :
    (((nbrChecks rows cols row col).filter fun ch => ch.1 && p ch.2).map
      fun ch => ch.2).Nodup := by
  have hpw := nbrChecks_pairwise rows cols row col
  have h2 : ((nbrChecks rows cols row col).filter fun ch => ch.1 && p ch.2).Pairwise
      (fun a b => a.2 ≠ b.2) := by
    refine List.Pairwise.imp_of_mem ?_ (hpw.filter _)
    intro a b ha hb hR
    have ha1 : a.1 = true := ((Bool.and_eq_true _ _).mp (List.mem_filter.mp ha).2).1
    have hb1 : b.1 = true := ((Bool.and_eq_true _ _).mp (List.mem_filter.mp hb).2).1
    exact hR ha1 hb1
  exact List.pairwise_map.mpr h2

theorem nbrChecks_pos_mem {g : Game} (hR : g.Rect) {root : Nat × Nat}
    (hrow : root.1 < g.rows) (hcol : root.2 < g.cols)
    (hreads : ∀ ch ∈ nbrChecks g.rows g.cols root.1 root.2, ch.1 = true →
      (g.cell_value ch.2.1 ch.2.2).isSome)
    (q : Nat × Nat) :
    (∃ ch ∈ nbrChecks g.rows g.cols root.1 root.2, ch.1 = true ∧ ch.2 = q) ↔
      (Adjacent root q ∧ q.1 < g.rows ∧ q.2 < g.cols) := by
  constructor
  · rintro ⟨ch, hch, hgt, hpos⟩
    have hsome := hreads ch hch hgt
    have hb := (Game.cell_value_isSome_iff hR ch.2.1 ch.2.2).mp hsome
    subst hpos
    refine ⟨?_, hb.1, hb.2⟩
    rw [adjacent_iff]
    fin_cases hch <;>
    · dsimp only at hgt ⊢
      have g1 := of_decide_eq_true hgt
      omega
  · rintro ⟨hadj, hqr, hqc⟩
    rw [adjacent_iff] at hadj
    obtain ⟨hne, h1, h2, h3, h4⟩ := hadj
    have hrow3 : (0 < root.1 ∧ q.1 = root.1 - 1) ∨ q.1 = root.1 ∨ q.1 = root.1 + 1 := by
      omega
    have hcol3 : (0 < root.2 ∧ q.2 = root.2 - 1) ∨ q.2 = root.2 ∨ q.2 = root.2 + 1 := by
      omega
    rcases hrow3 with ⟨hr0, hq1⟩ | hq1 | hq1 <;>
      rcases hcol3 with ⟨hc0, hq2⟩ | hq2 | hq2
    · exact ⟨(decide (0 < root.1 ∧ 0 < root.2), (root.1 - 1, root.2 - 1)),
        by simp [nbrChecks], decide_eq_true ⟨hr0, hc0⟩, by rw [← hq1, ← hq2]⟩
    · exact ⟨(decide (0 < root.1), (root.1 - 1, root.2)),
        by simp [nbrChecks], decide_eq_true hr0, by rw [← hq1, ← hq2]⟩
    · exact ⟨(decide (0 < root.1 ∧ root.2 + 1 ≤ g.cols), (root.1 - 1, root.2 + 1)),
        by simp [nbrChecks], decide_eq_true ⟨hr0, by omega⟩, by rw [← hq1, ← hq2]⟩
    · exact ⟨(decide (0 < root.2), (root.1, root.2 - 1)),
        by simp [nbrChecks], decide_eq_true hc0, by rw [← hq1, ← hq2]⟩
    · exact absurd ⟨by omega, by omega⟩ hne
    · exact ⟨(decide (root.2 + 1 ≤ g.cols), (root.1, root.2 + 1)),
        by simp [nbrChecks], decide_eq_true (by omega), by rw [← hq1, ← hq2]⟩
    · exact ⟨(decide (root.1 + 1 ≤ g.rows ∧ 0 < root.2), (root.1 + 1, root.2 - 1)),
        by simp [nbrChecks], decide_eq_true ⟨by omega, hc0⟩, by rw [← hq1, ← hq2]⟩
    · exact ⟨(decide (root.1 + 1 ≤ g.rows), (root.1 + 1, root.2)),
        by simp [nbrChecks], decide_eq_true (by omega), by rw [← hq1, ← hq2]⟩
    · exact ⟨(decide (root.1 + 1 ≤ g.rows ∧ root.2 + 1 ≤ g.cols), (root.1 + 1, root.2 + 1)),
        by simp [nbrChecks], decide_eq_true ⟨by omega, by omega⟩, by rw [← hq1, ← hq2]⟩

theorem get_dead_neighbours_spec {g : Game} (hR : g.Rect) {root : Nat × Nat}
    {l : List (Nat × Nat)} (hrow : root.1 < g.rows) (hcol : root.2 < g.cols)
    (h : g.get_dead_neighbours root = some l) (q : Nat × Nat) :
    q ∈ l ↔ (Adjacent root q ∧ g.cell_value q.1 q.2 = some 0) := by
  rw [Game.get_dead_neighbours, grid_size_some (by omega), Option.some_bind] at h
  obtain ⟨hreads, hl⟩ := deadChecks_some h
  subst hl
  rw [List.mem_map]
  constructor
  · rintro ⟨ch, hchf, hq⟩
    obtain ⟨hch, hb⟩ := List.mem_filter.mp hchf
    obtain ⟨hgt, hval⟩ := (Bool.and_eq_true _ _).mp hb
    have hval2 : g.cell_value ch.2.1 ch.2.2 = some 0 := beq_iff_eq.mp hval
    have hadj := (nbrChecks_pos_mem hR hrow hcol hreads q).mp ⟨ch, hch, hgt, hq⟩
    refine ⟨hadj.1, ?_⟩
    rw [← hq]
    exact hval2
  · rintro ⟨hadj, hval⟩
    obtain ⟨rowq, hrowq, hq1, hq2⟩ := cellVal_some_bounds hval
    have hqc : q.2 < g.cols := hR q.1 rowq hrowq ▸ hq2
    obtain ⟨ch, hch, hgt, hq⟩ :=
      (nbrChecks_pos_mem hR hrow hcol hreads q).mpr ⟨hadj, hq1, hqc⟩
    refine ⟨ch, List.mem_filter.mpr ⟨hch, ?_⟩, hq⟩
    rw [Bool.and_eq_true]
    refine ⟨hgt, ?_⟩
    rw [hq]
    exact beq_iff_eq.mpr hval

theorem get_living_neighbours_count_spec {g : Game} (hR : g.Rect) (hA : g.Agrees)
    {root : Nat × Nat} {n : Nat}
    (hrow : root.1 < g.rows) (hcol : root.2 < g.cols)
    (h : g.get_living_neighbours_count root = some n) :
    n = specLiveCount g.alive_cells root := by
  rw [Game.get_living_neighbours_count, grid_size_some (by omega), Option.some_bind] at h
  obtain ⟨hreads, hn⟩ := countChecks_some h
  have hA1 : ((nbrChecks g.rows g.cols root.1 root.2).filter
      (fun ch => ch.1 && (g.cell_value ch.2.1 ch.2.2 == some 1))).map (fun ch => ch.2)
      |>.Nodup :=
    nbrChecks_filter_map_nodup g.rows g.cols root.1 root.2
      fun pos => g.cell_value pos.1 pos.2 == some 1
  have hB1 : (g.alive_cells.dedup.filter fun q => decide (Adjacent root q)).Nodup :=
    (List.nodup_dedup g.alive_cells).filter _
  have hmem : ∀ x, (x ∈ ((nbrChecks g.rows g.cols root.1 root.2).filter
      (fun ch => ch.1 && (g.cell_value ch.2.1 ch.2.2 == some 1))).map (fun ch => ch.2)) ↔
      (x ∈ g.alive_cells.dedup.filter fun q => decide (Adjacent root q)) := by
    intro x
    rw [List.mem_map, List.mem_filter, List.mem_dedup, decide_eq_true_iff]
    constructor
    · rintro ⟨ch, hchf, hq⟩
      obtain ⟨hch, hb⟩ := List.mem_filter.mp hchf
      obtain ⟨hgt, hval⟩ := (Bool.and_eq_true _ _).mp hb
      have hval2 : g.cell_value x.1 x.2 = some 1 := by
        rw [← hq]; exact beq_iff_eq.mp hval
      have hadj := (nbrChecks_pos_mem hR hrow hcol hreads x).mp ⟨ch, hch, hgt, hq⟩
      exact ⟨(hA x.1 x.2).mp hval2, hadj.1⟩
    · rintro ⟨hx, hadj⟩
      have hval : g.cell_value x.1 x.2 = some 1 := (hA x.1 x.2).mpr hx
      obtain ⟨rowq, hrowq, hq1, hq2⟩ := cellVal_some_bounds hval
      have hqc : x.2 < g.cols := hR x.1 rowq hrowq ▸ hq2
      obtain ⟨ch, hch, hgt, hq⟩ :=
        (nbrChecks_pos_mem hR hrow hcol hreads x).mpr ⟨hadj, hq1, hqc⟩
      refine ⟨ch, List.mem_filter.mpr ⟨hch, ?_⟩, hq⟩
      rw [Bool.and_eq_true]
      refine ⟨hgt, ?_⟩
      rw [hq]
      exact beq_iff_eq.mpr hval
  have hperm := (List.perm_ext_iff_of_nodup hA1 hB1).mpr hmem
  rw [specLiveCount, List.countP_eq_length_filter, ← hperm.length_eq, List.length_map,
    ← List.countP_eq_length_filter]
  exact hn

theorem update_state_inv {g g2 : Game} {out : List PrintEvent}
    (h : g.update_state = some (g2, out)) :
    ∃ deadLists to_insert to_remove st1 st2,
      optMapM g.get_dead_neighbours g.alive_cells = some deadLists ∧
      optFilter (fun c => (g.get_living_neighbours_count c).map fun n => decide (n = 3))
        (unique deadLists.flatten) = some to_insert ∧
      optFilter (fun c => (g.get_living_neighbours_count c).map fun n =>
        decide (n < 2 ∨ 3 < n)) g.alive_cells = some to_remove ∧
      removeLoop to_remove g.grid g.alive_cells = some st1 ∧
      insertLoop to_insert st1.1 st1.2 = some st2 ∧
      Game.populate { grid := st2.1, alive_cells := st2.2 } = some g2 ∧
      out = [PrintEvent.removeLine to_remove, PrintEvent.insertLine to_insert] := by
  rw [Game.update_state] at h
  simp only [Option.bind_eq_some, Option.map_eq_some'] at h
  obtain ⟨dl, hdl, ti, hti, tr, htr, st1, hst1, st2, hst2, g3, hg3, hpair⟩ := h
  injection hpair with hg hout
  exact ⟨dl, ti, tr, st1, st2, hdl, hti, htr, hst1, hst2, hg ▸ hg3, hout.symm⟩

theorem cols_congr {gr1 gr2 : List (List Nat)}
    (hlen : gr2.length = gr1.length)
    (hs : ∀ (i : Nat), (gr2[i]?).map (fun (row : List Nat) => row.length) =
      (gr1[i]?).map (fun (row : List Nat) => row.length)) :
    (gr2.headD []).length = (gr1.headD []).length := by
  have h0 := hs 0
  cases hg1 : gr1 with
  | nil =>
    have : gr2 = [] := List.length_eq_zero.mp (by rw [hlen, hg1]; rfl)
    rw [this]
  | cons r rest =>
    have hlen2 : 0 < gr2.length := by rw [hlen, hg1]; simp
    cases hg2 : gr2 with
    | nil => rw [hg2] at hlen2; cases hlen2
    | cons r2 rest2 =>
      rw [hg1, hg2] at h0
      simp only [List.getElem?_cons_zero, Option.map_some'] at h0
      simp only [List.headD_cons]
      exact Option.some.inj h0

theorem update_state_spec {g g2 : Game} {out : List PrintEvent}
    (hW : g.Wf) (h : g.update_state = some (g2, out)) :
    (∀ p, p ∈ g2.alive_cells ↔ golNext g.rows g.cols g.alive_cells p) ∧
      g2.Wf ∧ g2.rows = g.rows ∧ g2.cols = g.cols := by
  obtain ⟨hR, hB, hA⟩ := hW
  obtain ⟨dl, ti, tr, st1, st2, hdl, hti, htr, hst1, hst2, hpop, hout⟩ := update_state_inv h
  -- bounds of live cells
  have hbounds : ∀ p ∈ g.alive_cells, p.1 < g.rows ∧ p.2 < g.cols := by
    intro p hp
    have hv := (hA p.1 p.2).mpr hp
    obtain ⟨rowq, hrowq, h1, h2⟩ := cellVal_some_bounds hv
    exact ⟨h1, hR _ _ hrowq ▸ h2⟩
  -- candidates
  have hcand : ∀ q, (q ∈ unique dl.flatten ↔
      ∃ a ∈ g.alive_cells, Adjacent a q ∧ g.cell_value q.1 q.2 = some 0) := by
    intro q
    rw [mem_unique, optMapM_flatten_mem hdl]
    constructor
    · rintro ⟨a, ha, la, hla, hq⟩
      obtain ⟨h1, h2⟩ := hbounds a ha
      have := (get_dead_neighbours_spec hR h1 h2 hla q).mp hq
      exact ⟨a, ha, this.1, this.2⟩
    · rintro ⟨a, ha, hadj, hval⟩
      obtain ⟨h1, h2⟩ := hbounds a ha
      obtain ⟨la, hla⟩ := Option.isSome_iff_exists.mp (optMapM_isSome_elem hdl a ha)
      exact ⟨a, ha, la, hla, (get_dead_neighbours_spec hR h1 h2 hla q).mpr ⟨hadj, hval⟩⟩
  have hcandb : ∀ q ∈ unique dl.flatten, q.1 < g.rows ∧ q.2 < g.cols := by
    intro q hq
    obtain ⟨a, ha, hadj, hval⟩ := (hcand q).mp hq
    obtain ⟨rowq, hrowq, h1, h2⟩ := cellVal_some_bounds hval
    exact ⟨h1, hR _ _ hrowq ▸ h2⟩
  -- births
  have hti_mem : ∀ p, (p ∈ ti ↔ (p.1 < g.rows ∧ p.2 < g.cols ∧
      g.cell_value p.1 p.2 = some 0 ∧ specLiveCount g.alive_cells p = 3)) := by
    intro p
    rw [optFilter_mem hti]
    constructor
    · rintro ⟨hp, hpred⟩
      obtain ⟨n, hn, hdec⟩ := Option.map_eq_some'.mp hpred
      obtain ⟨hb1, hb2⟩ := hcandb p hp
      have hcnt := get_living_neighbours_count_spec hR hA hb1 hb2 hn
      have h3 : n = 3 := of_decide_eq_true hdec
      obtain ⟨a, ha, hadj, hval⟩ := (hcand p).mp hp
      exact ⟨hb1, hb2, hval, by omega⟩
    · rintro ⟨hb1, hb2, hval, hcount⟩
      have hex : ∃ a ∈ g.alive_cells, Adjacent p a := by
        have hlen : 0 < (g.alive_cells.dedup.filter fun q => decide (Adjacent p q)).length := by
          rw [← List.countP_eq_length_filter]
          rw [specLiveCount] at hcount
          omega
        obtain ⟨a, ha⟩ := List.exists_mem_of_length_pos hlen
        obtain ⟨ha1, ha2⟩ := List.mem_filter.mp ha
        exact ⟨a, List.mem_dedup.mp ha1, of_decide_eq_true ha2⟩
      obtain ⟨a, ha, hadj⟩ := hex
      have hp : p ∈ unique dl.flatten := (hcand p).mpr ⟨a, ha, adjacent_symm hadj, hval⟩
      refine ⟨hp, ?_⟩
      obtain ⟨b, hb⟩ := Option.isSome_iff_exists.mp (optFilter_isSome_elem hti p hp)
      obtain ⟨n, hn, hdecb⟩ := Option.map_eq_some'.mp hb
      have hcnt := get_living_neighbours_count_spec hR hA hb1 hb2 hn
      rw [hb, ← hdecb]
      exact congrArg some (decide_eq_true (by omega))
  -- deaths
  have htr_mem : ∀ p, (p ∈ tr ↔ (p ∈ g.alive_cells ∧
      (specLiveCount g.alive_cells p < 2 ∨ 3 < specLiveCount g.alive_cells p))) := by
    intro p
    rw [optFilter_mem htr]
    constructor
    · rintro ⟨hp, hpred⟩
      obtain ⟨n, hn, hdec⟩ := Option.map_eq_some'.mp hpred
      obtain ⟨hb1, hb2⟩ := hbounds p hp
      have hcnt := get_living_neighbours_count_spec hR hA hb1 hb2 hn
      have hbad := of_decide_eq_true hdec
      exact ⟨hp, by omega⟩
    · rintro ⟨hp, hbad⟩
      obtain ⟨hb1, hb2⟩ := hbounds p hp
      refine ⟨hp, ?_⟩
      obtain ⟨b, hb⟩ := Option.isSome_iff_exists.mp (optFilter_isSome_elem htr p hp)
      obtain ⟨n, hn, hdecb⟩ := Option.map_eq_some'.mp hb
      have hcnt := get_living_neighbours_count_spec hR hA hb1 hb2 hn
      rw [hb, ← hdecb]
      exact congrArg some (decide_eq_true (by omega))
  -- commits
  obtain ⟨hsetr, hal1⟩ := removeLoop_eq hst1
  obtain ⟨hseti, hal2⟩ := insertLoop_eq hst2
  rw [Game.populate] at hpop
  obtain ⟨gridF, hsetp, hg2⟩ := Option.map_eq_some'.mp hpop
  have hg2grid : g2.grid = gridF := by rw [← hg2]
  have hg2alive : g2.alive_cells = st2.2 := by rw [← hg2]
  -- membership in the new LiveSet
  have hmemNA : ∀ p, (p ∈ st2.2 ↔ ((p ∈ g.alive_cells ∧ p ∉ tr) ∨ p ∈ ti)) := by
    intro p
    rw [hal2, List.mem_append, hal1, mem_foldl_filter]
  -- new LiveSet members are in bounds
  have hNAb : ∀ p ∈ st2.2, p.1 < g.rows ∧ p.2 < g.cols := by
    intro p hp
    rcases (hmemNA p).mp hp with ⟨hal, _⟩ | hti2
    · exact hbounds p hal
    · have := (hti_mem p).mp hti2
      exact ⟨this.1, this.2.1⟩
  -- shapes
  have hsh1 := setAll_shape hsetr
  have hsh2 := setAll_shape hseti
  have hshp := setAll_shape hsetp
  have hshape : g2.grid.length = g.grid.length ∧
      ∀ (i : Nat), (g2.grid[i]?).map (fun (row : List Nat) => row.length) =
        (g.grid[i]?).map (fun (row : List Nat) => row.length) := by
    rw [hg2grid]
    exact ⟨(hshp.1.trans hsh2.1).trans hsh1.1,
      fun i => ((hshp.2 i).trans (hsh2.2 i)).trans (hsh1.2 i)⟩
  have hrows2 : g2.rows = g.rows := hshape.1
  have hcols2 : g2.cols = g.cols := cols_congr hshape.1 hshape.2
  -- pointwise characterization of the final grid
  have hs1 : ∀ r c, (cellVal st1.1 r c).isSome ↔ (cellVal g.grid r c).isSome :=
    fun r c => cellVal_isSome_congr hsh1.2 r c
  have hs2 : ∀ r c, (cellVal st2.1 r c).isSome ↔ (cellVal g.grid r c).isSome :=
    fun r c => (cellVal_isSome_congr hsh2.2 r c).trans (hs1 r c)
  have hti_sub : ∀ x ∈ ti, x ∈ st2.2 := by
    intro x hx
    rw [hal2, List.mem_append]
    exact Or.inr hx
  have hfinal : ∀ r c, cellVal g2.grid r c =
      if (r, c) ∈ st2.2 ∧ (cellVal g.grid r c).isSome then some 1
      else if (r, c) ∈ tr ∧ (cellVal g.grid r c).isSome then some 0
      else cellVal g.grid r c := by
    intro r c
    have e1 := setAll_cellVal hsetr r c
    have e2 := setAll_cellVal hseti r c
    have e3 := setAll_cellVal hsetp r c
    by_cases hS : (cellVal g.grid r c).isSome
    · by_cases hna : (r, c) ∈ st2.2
      · have v3 : cellVal gridF r c = some 1 := by
          rw [e3]; exact if_pos ⟨hna, (hs2 r c).mpr hS⟩
        rw [hg2grid, v3]
        exact (if_pos ⟨hna, hS⟩).symm
      · have v2 : cellVal st2.1 r c = cellVal st1.1 r c := by
          rw [e2]; exact if_neg (fun hx => hna (hti_sub _ hx.1))
        have v3 : cellVal gridF r c = cellVal st1.1 r c := by
          rw [e3]; exact (if_neg (fun hx => hna hx.1)).trans v2
        rw [hg2grid, v3, e1]
        exact (if_neg (fun hx => hna hx.1)).symm
    · have v1 : cellVal st1.1 r c = cellVal g.grid r c := by
        rw [e1]; exact if_neg (fun hx => hS hx.2)
      have v2 : cellVal st2.1 r c = cellVal g.grid r c := by
        rw [e2]; exact (if_neg (fun hx => hS ((hs1 r c).mp hx.2))).trans v1
      have v3 : cellVal gridF r c = cellVal g.grid r c := by
        rw [e3]; exact (if_neg (fun hx => hS ((hs2 r c).mp hx.2))).trans v2
      rw [hg2grid, v3]
      exact ((if_neg (fun hx => hS hx.2)).trans (if_neg (fun hx => hS hx.2))).symm
  -- the new state is well-formed
  have hA2 : g2.Agrees := by
    intro r c
    rw [Game.cell_value, hfinal r c, hg2alive]
    constructor
    · intro h1
      by_cases hna : (r, c) ∈ st2.2 ∧ (cellVal g.grid r c).isSome
      · exact hna.1
      · rw [if_neg hna] at h1
        by_cases htr2 : (r, c) ∈ tr ∧ (cellVal g.grid r c).isSome
        · rw [if_pos htr2] at h1
          cases h1
        · rw [if_neg htr2] at h1
          have hS : (cellVal g.grid r c).isSome := by rw [h1]; rfl
          have hal : (r, c) ∈ g.alive_cells := (hA r c).mp h1
          have hntr : (r, c) ∉ tr := fun hx => htr2 ⟨hx, hS⟩
          have hmem : (r, c) ∈ st2.2 := (hmemNA (r, c)).mpr (Or.inl ⟨hal, hntr⟩)
          exact absurd ⟨hmem, hS⟩ hna
    · intro h1
      have hS : (cellVal g.grid r c).isSome := by
        have hb := hNAb (r, c) h1
        exact (Game.cell_value_isSome_iff hR r c).mpr hb
      rw [if_pos ⟨h1, hS⟩]
  have hB2 : g2.Binary := by
    intro r c v hv
    rw [Game.cell_value, hfinal r c] at hv
    by_cases h1 : (r, c) ∈ st2.2 ∧ (cellVal g.grid r c).isSome
    · rw [if_pos h1] at hv
      right
      exact (Option.some.inj hv).symm
    · rw [if_neg h1] at hv
      by_cases h2 : (r, c) ∈ tr ∧ (cellVal g.grid r c).isSome
      · rw [if_pos h2] at hv
        left
        exact (Option.some.inj hv).symm
      · rw [if_neg h2] at hv
        exact hB r c v hv
  have hR2 : g2.Rect := by
    intro i row hrow
    have hsi := hshape.2 i
    rw [hrow] at hsi
    cases hgi : g.grid[i]? with
    | none => rw [hgi] at hsi; cases hsi
    | some row2 =>
      rw [hgi] at hsi
      simp only [Option.map_some'] at hsi
      rw [hcols2, ← hR i row2 hgi]
      exact Option.some.inj hsi
  -- final LiveSet membership matches the specification rules
  refine ⟨?_, ⟨hR2, hB2, hA2⟩, hrows2, hcols2⟩
  intro p
  rw [hg2alive, hmemNA p, golNext, hti_mem p, htr_mem p]
  constructor
  · rintro (⟨hp, hnr⟩ | ⟨hb1, hb2, hval, hcnt⟩)
    · left
      refine ⟨hp, ?_⟩
      by_contra hbad
      exact hnr ⟨hp, by omega⟩
    · right
      have hnotal : p ∉ g.alive_cells := by
        intro hmem
        have h1 := (hA p.1 p.2).mpr hmem
        rw [Game.cell_value] at h1
        rw [Game.cell_value] at hval
        rw [hval] at h1
        cases h1
      exact ⟨hb1, hb2, hnotal, hcnt⟩
  · rintro (⟨hp, hgood⟩ | ⟨hb1, hb2, hnot, hcnt⟩)
    · left
      exact ⟨hp, fun hx => by omega⟩
    · right
      have hsome : (g.cell_value p.1 p.2).isSome :=
        (Game.cell_value_isSome_iff hR p.1 p.2).mpr ⟨hb1, hb2⟩
      obtain ⟨v, hv⟩ := Option.isSome_iff_exists.mp hsome
      rcases hB p.1 p.2 v hv with rfl | rfl
      · exact ⟨hb1, hb2, hv, hcnt⟩
      · exact absurd ((hA p.1 p.2).mp hv) hnot

theorem headD_of_getElem {grid : List (List Nat)} {row : List Nat}
    (h : grid[0]? = some row) : grid.headD [] = row := by
  cases grid with
  | nil => cases h
  | cons r rest =>
    simp only [List.getElem?_cons_zero, Option.some.injEq] at h
    rw [List.headD_cons, h]

theorem replicate_cellVal (rows cols r c : Nat) :
    cellVal (List.replicate rows (List.replicate cols 0)) r c =
      if r < rows ∧ c < cols then some 0 else none := by
  rw [cellVal, List.getElem?_replicate]
  by_cases hr : r < rows
  · rw [if_pos hr, Option.some_bind, List.getElem?_replicate]
    by_cases hc : c < cols
    · rw [if_pos hc, if_pos ⟨hr, hc⟩]
    · rw [if_neg hc, if_neg (fun hx => hc hx.2)]
  · rw [if_neg hr, Option.none_bind, if_neg (fun hx => hr hx.1)]

theorem new_spec (seed : List (Nat × Nat)) (rows cols : Nat) :
    ((Game.new seed rows cols = none) ↔ ∃ p ∈ seed, rows ≤ p.1 ∨ cols ≤ p.2) ∧
      ∀ g0, Game.new seed rows cols = some g0 →
        g0.alive_cells = seed ∧ g0.rows = rows ∧
        (∀ (i : Nat) (row : List Nat), g0.grid[i]? = some row → row.length = cols) ∧
        g0.Wf ∧
        (∀ r c, r < rows → c < cols →
          g0.cell_value r c = some (if (r, c) ∈ seed then 1 else 0)) := by
  have hSome : ∀ (r c : Nat),
      (cellVal (List.replicate rows (List.replicate cols 0)) r c).isSome ↔
        (r < rows ∧ c < cols) := by
    intro r c
    rw [replicate_cellVal]
    by_cases h : r < rows ∧ c < cols
    · simp [h]
    · simp [h]
  constructor
  · rw [Game.new, Game.populate]
    dsimp only
    rw [Option.map_eq_none']
    rw [← Option.not_isSome_iff_eq_none]
    rw [setAll_isSome_iff]
    constructor
    · intro h
      push_neg at h
      obtain ⟨p, hp, hb⟩ := h
      refine ⟨p, hp, ?_⟩
      by_contra hcon
      push_neg at hcon
      exact hb ((hSome p.1 p.2).mpr ⟨hcon.1, hcon.2⟩)
    · rintro ⟨p, hp, hb⟩ h
      have := (hSome p.1 p.2).mp (h p hp)
      omega
  · intro g0 hg0
    rw [Game.new, Game.populate] at hg0
    obtain ⟨grid2, hset, hg⟩ := Option.map_eq_some'.mp hg0
    have halive : g0.alive_cells = seed := by rw [← hg]
    have hgrid : g0.grid = grid2 := by rw [← hg]
    have hseedb : ∀ p ∈ seed, p.1 < rows ∧ p.2 < cols := by
      intro p hp
      have hs : (setAll 1 seed (List.replicate rows (List.replicate cols 0))).isSome := by
        rw [hset]; rfl
      exact (hSome p.1 p.2).mp (setAll_isSome_iff.mp hs p hp)
    obtain ⟨hlen, hshape⟩ := setAll_shape hset
    have hrows : g0.rows = rows := by
      rw [Game.rows, hgrid, hlen, List.length_replicate]
    have hrowlen : ∀ (i : Nat) (row : List Nat), g0.grid[i]? = some row →
        row.length = cols := by
      intro i row hrow
      have hsi := hshape i
      rw [hgrid] at hrow
      rw [hrow, List.getElem?_replicate] at hsi
      by_cases hi : i < rows
      · rw [if_pos hi] at hsi
        simp only [Option.map_some'] at hsi
        rw [List.length_replicate] at hsi
        exact Option.some.inj hsi
      · rw [if_neg hi] at hsi
        cases hsi
    have hcellv : ∀ (r c : Nat), cellVal grid2 r c =
        if (r, c) ∈ seed ∧ (r < rows ∧ c < cols) then some 1
        else if r < rows ∧ c < cols then some 0 else none := by
      intro r c
      rw [setAll_cellVal hset r c, replicate_cellVal]
      by_cases hb : r < rows ∧ c < cols <;> by_cases hm : (r, c) ∈ seed <;>
        simp [hb, hm]
    have hcols0 : g0.cols = cols ∨ g0.grid = [] := by
      cases hg0' : g0.grid with
      | nil => exact Or.inr rfl
      | cons r0 rest =>
        left
        have : g0.grid[0]? = some r0 := by rw [hg0']; simp
        rw [Game.cols, headD_of_getElem this]
        exact hrowlen 0 r0 this
    have hRect : g0.Rect := by
      intro i row hrow
      rcases hcols0 with hc | hc
      · rw [hc]
        exact hrowlen i row hrow
      · rw [hc] at hrow
        cases hrow
    have hBin : g0.Binary := by
      intro r c v hv
      rw [Game.cell_value, hgrid, hcellv r c] at hv
      by_cases h1 : (r, c) ∈ seed ∧ (r < rows ∧ c < cols)
      · rw [if_pos h1] at hv
        right
        exact (Option.some.inj hv).symm
      · rw [if_neg h1] at hv
        by_cases h2 : r < rows ∧ c < cols
        · rw [if_pos h2] at hv
          left
          exact (Option.some.inj hv).symm
        · rw [if_neg h2] at hv
          cases hv
    have hAg : g0.Agrees := by
      intro r c
      rw [Game.cell_value, hgrid, hcellv r c, halive]
      constructor
      · intro h1
        by_cases hm : (r, c) ∈ seed ∧ (r < rows ∧ c < cols)
        · exact hm.1
        · rw [if_neg hm] at h1
          by_cases h2 : r < rows ∧ c < cols
          · rw [if_pos h2] at h1
            cases h1
          · rw [if_neg h2] at h1
            cases h1
      · intro h1
        rw [if_pos ⟨h1, hseedb _ h1⟩]
    refine ⟨halive, hrows, hrowlen, ⟨hRect, hBin, hAg⟩, ?_⟩
    intro r c hr hc
    rw [Game.cell_value, hgrid, hcellv r c]
    by_cases hm : (r, c) ∈ seed
    · rw [if_pos ⟨hm, hr, hc⟩, if_pos hm]
    · rw [if_neg (fun hx => hm hx.1), if_pos ⟨hr, hc⟩, if_neg hm]

theorem rectCheck_sound {g : Game} (h : g.rectCheck = true) : g.Rect := by
  rw [Game.rectCheck] at h
  intro i row hrow
  exact beq_iff_eq.mp (List.all_eq_true.mp h row (grid_mem_of_getElem hrow))

theorem wfCheck_sound {g : Game} (h : g.wfCheck = true) : g.Wf := by
  rw [Game.wfCheck] at h
  simp only [Bool.and_eq_true] at h
  obtain ⟨⟨⟨hrect, hbin⟩, halive⟩, hagree⟩ := h
  have hR : g.Rect := by
    intro i row hrow
    exact beq_iff_eq.mp (List.all_eq_true.mp hrect row (grid_mem_of_getElem hrow))
  have hB : g.Binary := by
    intro r c v hv
    obtain ⟨row, hrow, hr, hc⟩ := cellVal_some_bounds hv
    rw [Game.cell_value, cellVal, hrow, Option.some_bind] at hv
    obtain ⟨hlt, heq⟩ := List.getElem?_eq_some.mp hv
    have hvmem : v ∈ row := heq ▸ List.getElem_mem hlt
    have h1 := List.all_eq_true.mp hbin row (grid_mem_of_getElem hrow)
    have h2 := List.all_eq_true.mp h1 v hvmem
    have h3 : v = 0 ∨ v = 1 := by simpa using h2
    exact h3
  refine ⟨hR, hB, ?_⟩
  intro r c
  constructor
  · intro hv
    obtain ⟨row, hrow, hr, hc⟩ := cellVal_some_bounds hv
    have hcc : c < g.cols := hR r row hrow ▸ hc
    have h1 := List.all_eq_true.mp hagree r (List.mem_range.mpr hr)
    have h2 := List.all_eq_true.mp h1 c (List.mem_range.mpr hcc)
    have h3 : (g.cell_value r c == some 1) = decide ((r, c) ∈ g.alive_cells) :=
      beq_iff_eq.mp h2
    have h4 : (g.cell_value r c == some 1) = true := beq_iff_eq.mpr hv
    rw [h4] at h3
    exact of_decide_eq_true h3.symm
  · intro hmem
    have := List.all_eq_true.mp halive (r, c) hmem
    exact beq_iff_eq.mp this

theorem step_empty (grid : List (List Nat)) :
    (Game.mk grid []).update_state =
      some (Game.mk grid [], [PrintEvent.removeLine [], PrintEvent.insertLine []]) := rfl

theorem specLiveCount_congr {l1 l2 : List (Nat × Nat)} (h : EqSet l1 l2) (p : Nat × Nat) :
    specLiveCount l1 p = specLiveCount l2 p := by
  have hperm : l1.dedup.Perm l2.dedup :=
    (List.perm_ext_iff_of_nodup (List.nodup_dedup l1) (List.nodup_dedup l2)).mpr
      (fun a => by rw [List.mem_dedup, List.mem_dedup]; exact h a)
  rw [specLiveCount, specLiveCount]
  exact hperm.countP_eq _

theorem golNext_congr {rows cols : Nat} {l1 l2 : List (Nat × Nat)} (h : EqSet l1 l2)
    (p : Nat × Nat) : golNext rows cols l1 p ↔ golNext rows cols l2 p := by
  rw [golNext, golNext, specLiveCount_congr h p, h p]

theorem grid_eq_of_wf {g1 g2 : Game} (h1 : g1.Wf) (h2 : g2.Wf)
    (hrows : g1.rows = g2.rows) (hcols : g1.cols = g2.cols)
    (halive : EqSet g1.alive_cells g2.alive_cells) : g1.grid = g2.grid := by
  obtain ⟨hR1, hB1, hA1⟩ := h1
  obtain ⟨hR2, hB2, hA2⟩ := h2
  have hcell : ∀ r c, g1.cell_value r c = g2.cell_value r c := by
    intro r c
    by_cases hb : r < g1.rows ∧ c < g1.cols
    · have hs1 : (g1.cell_value r c).isSome := (Game.cell_value_isSome_iff hR1 r c).mpr hb
      have hs2 : (g2.cell_value r c).isSome :=
        (Game.cell_value_isSome_iff hR2 r c).mpr (by rw [← hrows, ← hcols]; exact hb)
      obtain ⟨v1, hv1⟩ := Option.isSome_iff_exists.mp hs1
      obtain ⟨v2, hv2⟩ := Option.isSome_iff_exists.mp hs2
      rw [hv1, hv2]
      rcases hB1 r c v1 hv1 with rfl | rfl
      · rcases hB2 r c v2 hv2 with rfl | rfl
        · rfl
        · have hm2 : (r, c) ∈ g2.alive_cells := (hA2 r c).mp hv2
          have hm1 : (r, c) ∈ g1.alive_cells := (halive (r, c)).mpr hm2
          have := (hA1 r c).mpr hm1
          rw [hv1] at this
          cases this
      · rcases hB2 r c v2 hv2 with rfl | rfl
        · have hm1 : (r, c) ∈ g1.alive_cells := (hA1 r c).mp hv1
          have hm2 : (r, c) ∈ g2.alive_cells := (halive (r, c)).mp hm1
          have := (hA2 r c).mpr hm2
          rw [hv2] at this
          cases this
        · rfl
    · have hs1 : ¬(g1.cell_value r c).isSome :=
        fun hx => hb ((Game.cell_value_isSome_iff hR1 r c).mp hx)
      have hs2 : ¬(g2.cell_value r c).isSome :=
        fun hx => hb (by
          have := (Game.cell_value_isSome_iff hR2 r c).mp hx
          rw [← hrows, ← hcols] at this
          exact this)
      rw [Option.not_isSome_iff_eq_none] at hs1 hs2
      rw [hs1, hs2]
  apply List.ext_getElem?
  intro i
  by_cases hi : i < g1.rows
  · have hi2 : i < g2.rows := hrows ▸ hi
    have hrow1 : g1.grid[i]? = some g1.grid[i] := List.getElem?_eq_getElem hi
    have hrow2 : g2.grid[i]? = some g2.grid[i] := List.getElem?_eq_getElem hi2
    rw [hrow1, hrow2]
    congr 1
    apply List.ext_getElem?
    intro j
    have e1 : g1.grid[i][j]? = g1.cell_value i j := by
      rw [Game.cell_value, cellVal, hrow1, Option.some_bind]
    have e2 : g2.grid[i][j]? = g2.cell_value i j := by
      rw [Game.cell_value, cellVal, hrow2, Option.some_bind]
    rw [e1, e2, hcell i j]
  · rw [List.getElem?_eq_none (by rw [← Game.rows]; omega),
      List.getElem?_eq_none (by rw [← Game.rows, ← hrows]; omega)]

theorem blinkerH_next {R C r c : Nat} (hr1 : 0 < r) (hr2 : r + 1 < R)
    (hc1 : 0 < c) (hc2 : c + 4 ≤ C) (p : Nat × Nat) :
    golNext R C [(r, c), (r, c + 1), (r, c + 2)] p ↔
      p ∈ [(r - 1, c + 1), (r, c + 1), (r + 1, c + 1)] := by
  have hded : ([(r, c), (r, c + 1), (r, c + 2)] : List (Nat × Nat)).dedup
      = [(r, c), (r, c + 1), (r, c + 2)] := by
    rw [List.dedup_eq_self]
    simp <;> omega
  rw [golNext, specLiveCount, hded]
  rw [List.countP_cons, List.countP_cons, List.countP_cons, List.countP_nil]
  simp only [List.mem_cons, List.not_mem_nil, or_false, Prod.ext_iff]
  by_cases a1 : Adjacent p (r, c) <;> by_cases a2 : Adjacent p (r, c + 1) <;>
    by_cases a3 : Adjacent p (r, c + 2) <;>
  · simp only [decide_eq_true_iff, a1, a2, a3, if_true, if_false, iff_true, iff_false]
    try rw [adjacent_iff] at a1 a2 a3
    try simp only [not_false_iff, not_true, true_and, and_true, true_or, or_true,
      false_or, or_false, false_and, and_false, true_iff, iff_true, false_iff,
      iff_false] at a1 a2 a3 ⊢
    try omega

theorem blinkerV_next {R C r c : Nat} (hr1 : 0 < r) (hr2 : r + 1 < R)
    (hc1 : 0 < c) (hc2 : c + 4 ≤ C) (p : Nat × Nat) :
    golNext R C [(r - 1, c + 1), (r, c + 1), (r + 1, c + 1)] p ↔
      p ∈ [(r, c), (r, c + 1), (r, c + 2)] := by
  have hded : ([(r - 1, c + 1), (r, c + 1), (r + 1, c + 1)] : List (Nat × Nat)).dedup
      = [(r - 1, c + 1), (r, c + 1), (r + 1, c + 1)] := by
    rw [List.dedup_eq_self]
    simp <;> omega
  rw [golNext, specLiveCount, hded]
  rw [List.countP_cons, List.countP_cons, List.countP_cons, List.countP_nil]
  simp only [List.mem_cons, List.not_mem_nil, or_false, Prod.ext_iff]
  by_cases a1 : Adjacent p (r - 1, c + 1) <;> by_cases a2 : Adjacent p (r, c + 1) <;>
    by_cases a3 : Adjacent p (r + 1, c + 1) <;>
  · simp only [decide_eq_true_iff, a1, a2, a3, if_true, if_false, iff_true, iff_false]
    try rw [adjacent_iff] at a1 a2 a3
    try simp only [not_false_iff, not_true, true_and, and_true, true_or, or_true,
      false_or, or_false, false_and, and_false, true_iff, iff_true, false_iff,
      iff_false] at a1 a2 a3 ⊢
    try omega

theorem renderRowFrom_spec {g : Game} {i : Nat} {row : List Nat}
    (hrow : g.grid[i]? = some row) :
    ∀ (n j : Nat) (acc : String), j + n = row.length →
      renderRowFrom g i j n acc = some (acc ++ rowStr (row.drop j)) := by
  intro n
  induction n with
  | zero =>
    intro j acc h
    have hj : j = row.length := by omega
    rw [renderRowFrom, hj, List.drop_length, rowStr, String.append_empty]
  | succ n ih =>
    intro j acc h
    have hj : j < row.length := by omega
    have hcell : g.cell_value i j = some row[j] := by
      rw [Game.cell_value, cellVal, hrow, Option.some_bind]
      exact List.getElem?_eq_getElem hj
    rw [renderRowFrom, hcell, Option.some_bind, ih (j + 1) (acc ++ glyph row[j]) (by omega)]
    rw [List.drop_eq_getElem_cons hj, rowStr, String.append_assoc]

theorem renderRows_spec {g : Game} (hR : g.Rect) :
    ∀ (n i : Nat) (acc : String), i + n = g.rows →
      renderRows g g.rows g.cols i n acc = some (acc ++ gridStr (g.grid.drop i)) := by
  intro n
  induction n with
  | zero =>
    intro i acc h
    have hi : i = g.grid.length := by rw [← Game.rows]; omega
    rw [renderRows, hi, List.drop_length, gridStr, String.append_empty]
  | succ n ih =>
    intro i acc h
    have hi : i < g.rows := by omega
    have hilen : i < g.grid.length := hi
    have hrow : g.grid[i]? = some g.grid[i] := List.getElem?_eq_getElem hilen
    have hlen : g.grid[i].length = g.cols := hR i _ hrow
    have hinner := renderRowFrom_spec hrow g.cols 0 acc (by omega)
    rw [List.drop_zero] at hinner
    rw [renderRows, hinner, Option.some_bind]
    rw [List.drop_eq_getElem_cons hilen]
    by_cases hlast : i < g.rows - 1
    · rw [if_pos hlast, ih (i + 1) ((acc ++ rowStr g.grid[i]) ++ "\n") (by omega)]
      obtain ⟨x, xs, hxx⟩ : ∃ x xs, g.grid.drop (i + 1) = x :: xs := by
        cases hd : g.grid.drop (i + 1) with
        | nil =>
          have := List.drop_eq_nil_iff_le.mp hd
          rw [← Game.rows] at this
          omega
        | cons x xs => exact ⟨x, xs, rfl⟩
      rw [hxx, gridStr]
      simp [String.append_assoc]
    · have hstop : i + 1 = g.rows := by omega
      have hnil : g.grid.drop (i + 1) = [] := by
        rw [List.drop_eq_nil_iff_le, ← Game.rows]
        omega
      rw [if_neg hlast, ih (i + 1) (acc ++ rowStr g.grid[i]) (by omega), hnil, gridStr,
        String.append_empty, gridStr]

theorem render_spec {g : Game} (hne : g.grid ≠ []) (hR : g.Rect) :
    g.render = some (gridStr g.grid) := by
  have hpos : 0 < g.rows := by
    rw [Game.rows]
    cases hg : g.grid with
    | nil => exact absurd hg hne
    | cons a l => simp
  rw [Game.render, grid_size_some hpos, Option.some_bind]
  have := renderRows_spec hR g.rows 0 "" (by omega)
  rw [List.drop_zero] at this
  rw [this]
  congr 1

theorem countChecks_mk (grid : List (List Nat)) (l l' : List (Nat × Nat)) :
    ∀ checks, countChecks (Game.mk grid l) checks = countChecks (Game.mk grid l') checks := by
  intro checks
  induction checks with
  | nil => rfl
  | cons ch rest ih => rw [countChecks, countChecks, ih]; rfl

theorem deadChecks_mk (grid : List (List Nat)) (l l' : List (Nat × Nat)) :
    ∀ checks, deadChecks (Game.mk grid l) checks = deadChecks (Game.mk grid l') checks := by
  intro checks
  induction checks with
  | nil => rfl
  | cons ch rest ih => rw [deadChecks, deadChecks, ih]; rfl

theorem gdn_mk (grid : List (List Nat)) (l l' : List (Nat × Nat)) (root : Nat × Nat) :
    (Game.mk grid l).get_dead_neighbours root = (Game.mk grid l').get_dead_neighbours root := by
  rw [Game.get_dead_neighbours, Game.get_dead_neighbours]
  cases hsz : (Game.mk grid l).grid_size with
  | none => rw [(by exact hsz : (Game.mk grid l').grid_size = none)]; rfl
  | some sz =>
    rw [(by exact hsz : (Game.mk grid l').grid_size = some sz), Option.some_bind,
      Option.some_bind]
    exact deadChecks_mk grid l l' _

theorem count_mk (grid : List (List Nat)) (l l' : List (Nat × Nat)) (root : Nat × Nat) :
    (Game.mk grid l).get_living_neighbours_count root =
      (Game.mk grid l').get_living_neighbours_count root := by
  rw [Game.get_living_neighbours_count, Game.get_living_neighbours_count]
  cases hsz : (Game.mk grid l).grid_size with
  | none => rw [(by exact hsz : (Game.mk grid l').grid_size = none)]; rfl
  | some sz =>
    rw [(by exact hsz : (Game.mk grid l').grid_size = some sz), Option.some_bind,
      Option.some_bind]
    exact countChecks_mk grid l l' _

theorem commit_cellVal {grid st1g st2g gridF : List (List Nat)} {tr ti na : List (Nat × Nat)}
    (hsetr : setAll 0 tr grid = some st1g)
    (hseti : setAll 1 ti st1g = some st2g)
    (hsetp : setAll 1 na st2g = some gridF)
    (hti_sub : ∀ x ∈ ti, x ∈ na) :
    ∀ r c, cellVal gridF r c =
      if (r, c) ∈ na ∧ (cellVal grid r c).isSome then some 1
      else if (r, c) ∈ tr ∧ (cellVal grid r c).isSome then some 0
      else cellVal grid r c := by
  intro r c
  have hs1 : (cellVal st1g r c).isSome ↔ (cellVal grid r c).isSome :=
    cellVal_isSome_congr (setAll_shape hsetr).2 r c
  have hs2 : (cellVal st2g r c).isSome ↔ (cellVal grid r c).isSome :=
    (cellVal_isSome_congr (setAll_shape hseti).2 r c).trans hs1
  have e1 := setAll_cellVal hsetr r c
  have e2 := setAll_cellVal hseti r c
  have e3 := setAll_cellVal hsetp r c
  by_cases hS : (cellVal grid r c).isSome
  · by_cases hna : (r, c) ∈ na
    · have v3 : cellVal gridF r c = some 1 := by
        rw [e3]; exact if_pos ⟨hna, hs2.mpr hS⟩
      rw [v3]
      exact (if_pos ⟨hna, hS⟩).symm
    · have v2 : cellVal st2g r c = cellVal st1g r c := by
        rw [e2]; exact if_neg (fun hx => hna (hti_sub _ hx.1))
      have v3 : cellVal gridF r c = cellVal st1g r c := by
        rw [e3]; exact (if_neg (fun hx => hna hx.1)).trans v2
      rw [v3, e1]
      exact (if_neg (fun hx => hna hx.1)).symm
  · have v1 : cellVal st1g r c = cellVal grid r c := by
      rw [e1]; exact if_neg (fun hx => hS hx.2)
    have v2 : cellVal st2g r c = cellVal grid r c := by
      rw [e2]; exact (if_neg (fun hx => hS (hs1.mp hx.2))).trans v1
    have v3 : cellVal gridF r c = cellVal grid r c := by
      rw [e3]; exact (if_neg (fun hx => hS (hs2.mp hx.2))).trans v2
    rw [v3]
    exact ((if_neg (fun hx => hS hx.2)).trans (if_neg (fun hx => hS hx.2))).symm

theorem grid_eq_of_cellVal {ga gb : List (List Nat)}
    (hsa : ∀ (i : Nat), (ga[i]?).map (fun (row : List Nat) => row.length) =
      (gb[i]?).map (fun (row : List Nat) => row.length))
    (hcell : ∀ r c, cellVal ga r c = cellVal gb r c) : ga = gb := by
  apply List.ext_getElem?
  intro i
  have hsi := hsa i
  cases h1 : ga[i]? with
  | none =>
    rw [h1] at hsi
    cases h2 : gb[i]? with
    | none => rfl
    | some rowb => rw [h2] at hsi; cases hsi
  | some rowa =>
    rw [h1] at hsi
    cases h2 : gb[i]? with
    | none => rw [h2] at hsi; cases hsi
    | some rowb =>
      rw [h2] at hsi
      congr 1
      apply List.ext_getElem?
      intro j
      have e1 : rowa[j]? = cellVal ga i j := by rw [cellVal, h1, Option.some_bind]
      have e2 : rowb[j]? = cellVal gb i j := by rw [cellVal, h2, Option.some_bind]
      rw [e1, e2, hcell i j]

theorem update_state_eqset {grid : List (List Nat)} {l1 l2 : List (Nat × Nat)}
    {g1' : Game} {out1 : List PrintEvent}
    (hs : EqSet l1 l2)
    (h1 : (Game.mk grid l1).update_state = some (g1', out1)) :
    ∃ g2' out2, (Game.mk grid l2).update_state = some (g2', out2) ∧
      g1'.grid = g2'.grid ∧ EqSet g1'.alive_cells g2'.alive_cells := by
  obtain ⟨dl, ti, tr, st1, st2, hdl, hti, htr, hst1, hst2, hpop, hout⟩ := update_state_inv h1
  obtain ⟨hsetr, hal1⟩ := removeLoop_eq hst1
  obtain ⟨hseti, hal2⟩ := insertLoop_eq hst2
  rw [Game.populate] at hpop
  obtain ⟨gridF, hsetp, hg1⟩ := Option.map_eq_some'.mp hpop
  have hg1grid : g1'.grid = gridF := by rw [← hg1]
  have hg1alive : g1'.alive_cells = st2.2 := by rw [← hg1]
  have hsetrP : setAll 0 tr grid = some st1.1 := hsetr
  have hsetpP : setAll 1 st2.2 st2.1 = some gridF := hsetp
  have hdl2s : (optMapM (Game.mk grid l2).get_dead_neighbours l2).isSome := by
    apply optMapM_isSome_of
    intro a ha
    rw [gdn_mk grid l2 l1 a]
    exact optMapM_isSome_elem hdl a ((hs a).mpr ha)
  obtain ⟨dl2, hdl2⟩ := Option.isSome_iff_exists.mp hdl2s
  have hcand12 : ∀ q, (q ∈ unique dl2.flatten ↔ q ∈ unique dl.flatten) := by
    intro q
    rw [mem_unique, mem_unique, optMapM_flatten_mem hdl2 q, optMapM_flatten_mem hdl q]
    constructor
    · rintro ⟨a, ha, la, hla, hq⟩
      refine ⟨a, (hs a).mpr ha, la, ?_, hq⟩
      rw [← gdn_mk grid l2 l1 a]
      exact hla
    · rintro ⟨a, ha, la, hla, hq⟩
      refine ⟨a, (hs a).mp ha, la, ?_, hq⟩
      rw [gdn_mk grid l2 l1 a]
      exact hla
  have hpred2i : (optFilter (fun c => ((Game.mk grid l2).get_living_neighbours_count c).map
      fun n => decide (n = 3)) (unique dl2.flatten)).isSome := by
    apply optFilter_isSome_of
    intro a ha
    have h1s : (((Game.mk grid l1).get_living_neighbours_count a).map
        (fun n => decide (n = 3))).isSome :=
      optFilter_isSome_elem hti a ((hcand12 a).mp ha)
    have h2s : (((Game.mk grid l2).get_living_neighbours_count a).map
        (fun n => decide (n = 3))).isSome := by
      rw [count_mk grid l2 l1 a]; exact h1s
    exact h2s
  obtain ⟨ti2, hti2⟩ := Option.isSome_iff_exists.mp hpred2i
  have hti12 : ∀ p, (p ∈ ti2 ↔ p ∈ ti) := by
    intro p
    rw [optFilter_mem hti2 p, optFilter_mem hti p]
    constructor
    · rintro ⟨hp, hpred⟩
      refine ⟨(hcand12 p).mp hp, ?_⟩
      have hpred' : ((Game.mk grid l2).get_living_neighbours_count p).map
          (fun n => decide (n = 3)) = some true := hpred
      have hgoal : ((Game.mk grid l1).get_living_neighbours_count p).map
          (fun n => decide (n = 3)) = some true := by
        rw [← count_mk grid l2 l1 p]; exact hpred'
      exact hgoal
    · rintro ⟨hp, hpred⟩
      refine ⟨(hcand12 p).mpr hp, ?_⟩
      have hpred' : ((Game.mk grid l1).get_living_neighbours_count p).map
          (fun n => decide (n = 3)) = some true := hpred
      have hgoal : ((Game.mk grid l2).get_living_neighbours_count p).map
          (fun n => decide (n = 3)) = some true := by
        rw [count_mk grid l2 l1 p]; exact hpred'
      exact hgoal
  have hpredr2 : (optFilter (fun c => ((Game.mk grid l2).get_living_neighbours_count c).map
      fun n => decide (n < 2 ∨ 3 < n)) l2).isSome := by
    apply optFilter_isSome_of
    intro a ha
    have h1s : (((Game.mk grid l1).get_living_neighbours_count a).map
        (fun n => decide (n < 2 ∨ 3 < n))).isSome :=
      optFilter_isSome_elem htr a ((hs a).mpr ha)
    have h2s : (((Game.mk grid l2).get_living_neighbours_count a).map
        (fun n => decide (n < 2 ∨ 3 < n))).isSome := by
      rw [count_mk grid l2 l1 a]; exact h1s
    exact h2s
  obtain ⟨tr2, htr2⟩ := Option.isSome_iff_exists.mp hpredr2
  have htr12 : ∀ p, (p ∈ tr2 ↔ p ∈ tr) := by
    intro p
    rw [optFilter_mem htr2 p, optFilter_mem htr p]
    constructor
    · rintro ⟨hp, hpred⟩
      refine ⟨(hs p).mpr hp, ?_⟩
      have hpred' : ((Game.mk grid l2).get_living_neighbours_count p).map
          (fun n => decide (n < 2 ∨ 3 < n)) = some true := hpred
      have hgoal : ((Game.mk grid l1).get_living_neighbours_count p).map
          (fun n => decide (n < 2 ∨ 3 < n)) = some true := by
        rw [← count_mk grid l2 l1 p]; exact hpred'
      exact hgoal
    · rintro ⟨hp, hpred⟩
      refine ⟨(hs p).mp hp, ?_⟩
      have hpred' : ((Game.mk grid l1).get_living_neighbours_count p).map
          (fun n => decide (n < 2 ∨ 3 < n)) = some true := hpred
      have hgoal : ((Game.mk grid l2).get_living_neighbours_count p).map
          (fun n => decide (n < 2 ∨ 3 < n)) = some true := by
        rw [count_mk grid l2 l1 p]; exact hpred'
      exact hgoal
  have hsetr2s : (setAll 0 tr2 grid).isSome := by
    rw [setAll_isSome_iff]
    intro c hc
    exact setAll_isSome_iff.mp (by rw [hsetrP]; rfl) c ((htr12 c).mp hc)
  obtain ⟨st1', hst1'⟩ := Option.isSome_iff_exists.mp (@removeLoop_isSome tr2 grid l2 hsetr2s)
  obtain ⟨hsetr2, hal1'⟩ := removeLoop_eq hst1'
  have hseti2s : (setAll 1 ti2 st1'.1).isSome := by
    rw [setAll_isSome_iff]
    intro c hc
    have hbase : (cellVal st1.1 c.1 c.2).isSome :=
      setAll_isSome_iff.mp (by rw [hseti]; rfl) c ((hti12 c).mp hc)
    have h1 : (cellVal grid c.1 c.2).isSome :=
      (cellVal_isSome_congr (setAll_shape hsetrP).2 c.1 c.2).mp hbase
    exact (cellVal_isSome_congr (setAll_shape hsetr2).2 c.1 c.2).mpr h1
  obtain ⟨st2', hst2'⟩ := Option.isSome_iff_exists.mp (@insertLoop_isSome ti2 st1'.1 st1'.2 hseti2s)
  obtain ⟨hseti2, hal2'⟩ := insertLoop_eq hst2'
  have hna12 : ∀ p, (p ∈ st2'.2 ↔ p ∈ st2.2) := by
    intro p
    rw [hal2', List.mem_append, hal1', mem_foldl_filter, hal2, List.mem_append, hal1,
      mem_foldl_filter]
    constructor
    · rintro (⟨ha, hb⟩ | hc)
      · exact Or.inl ⟨(hs p).mpr ha, fun hx => hb ((htr12 p).mpr hx)⟩
      · exact Or.inr ((hti12 p).mp hc)
    · rintro (⟨ha, hb⟩ | hc)
      · exact Or.inl ⟨(hs p).mp ha, fun hx => hb ((htr12 p).mp hx)⟩
      · exact Or.inr ((hti12 p).mpr hc)
  have hsetp2s : (setAll 1 st2'.2 st2'.1).isSome := by
    rw [setAll_isSome_iff]
    intro c hc
    have hbase : (cellVal st2.1 c.1 c.2).isSome :=
      setAll_isSome_iff.mp (by rw [hsetpP]; rfl) c ((hna12 c).mp hc)
    have h1 : (cellVal grid c.1 c.2).isSome :=
      ((cellVal_isSome_congr (setAll_shape hseti).2 c.1 c.2).trans
        (cellVal_isSome_congr (setAll_shape hsetrP).2 c.1 c.2)).mp hbase
    exact ((cellVal_isSome_congr (setAll_shape hseti2).2 c.1 c.2).trans
      (cellVal_isSome_congr (setAll_shape hsetr2).2 c.1 c.2)).mpr h1
  obtain ⟨gridF2, hsetp2⟩ := Option.isSome_iff_exists.mp hsetp2s
  have hpop2 : Game.populate { grid := st2'.1, alive_cells := st2'.2 } =
      some { grid := gridF2, alive_cells := st2'.2 } := by
    rw [Game.populate]
    have h' : setAll 1 ({ grid := st2'.1, alive_cells := st2'.2 } : Game).alive_cells
        ({ grid := st2'.1, alive_cells := st2'.2 } : Game).grid = some gridF2 := hsetp2
    rw [h', Option.map_some']
  have hrun2 : (Game.mk grid l2).update_state =
      some ({ grid := gridF2, alive_cells := st2'.2 },
        [PrintEvent.removeLine tr2, PrintEvent.insertLine ti2]) := by
    rw [Game.update_state]
    have h1' : optMapM (Game.mk grid l2).get_dead_neighbours
        (Game.mk grid l2).alive_cells = some dl2 := hdl2
    rw [h1', Option.some_bind]
    rw [hti2, Option.some_bind]
    have h3' : optFilter (fun c => ((Game.mk grid l2).get_living_neighbours_count c).map
        fun n => decide (n < 2 ∨ 3 < n)) (Game.mk grid l2).alive_cells = some tr2 := htr2
    rw [h3', Option.some_bind]
    have h4' : removeLoop tr2 (Game.mk grid l2).grid (Game.mk grid l2).alive_cells =
        some st1' := hst1'
    rw [h4', Option.some_bind]
    rw [hst2', Option.some_bind]
    rw [hpop2, Option.map_some']
  have hchar1 := commit_cellVal hsetrP hseti hsetpP
    (fun x hx => by rw [hal2]; exact List.mem_append.mpr (Or.inr hx))
  have hchar2 := commit_cellVal hsetr2 hseti2 hsetp2
    (fun x hx => by rw [hal2']; exact List.mem_append.mpr (Or.inr hx))
  have hshape12 : ∀ (i : Nat), (gridF[i]?).map (fun (row : List Nat) => row.length) =
      (gridF2[i]?).map (fun (row : List Nat) => row.length) := by
    intro i
    have hA := ((setAll_shape hsetpP).2 i).trans
      (((setAll_shape hseti).2 i).trans ((setAll_shape hsetrP).2 i))
    have hB := ((setAll_shape hsetp2).2 i).trans
      (((setAll_shape hseti2).2 i).trans ((setAll_shape hsetr2).2 i))
    rw [hA, hB]
  have hcellEq : ∀ r c, cellVal gridF r c = cellVal gridF2 r c := by
    intro r c
    rw [hchar1 r c, hchar2 r c]
    exact if_congr (and_congr_left fun _ => (hna12 (r, c)).symm) rfl
      (if_congr (and_congr_left fun _ => (htr12 (r, c)).symm) rfl rfl)
  refine ⟨{ grid := gridF2, alive_cells := st2'.2 }, _, hrun2, ?_, ?_⟩
  · rw [hg1grid]
    exact grid_eq_of_cellVal hshape12 hcellEq
  · intro x
    rw [hg1alive]
    exact ((hna12 x).symm : x ∈ st2.2 ↔ x ∈ st2'.2)

theorem countChecks_isSome {g : Game} {checks : List (Bool × Nat × Nat)}
    (h : ∀ ch ∈ checks, ch.1 = true → (g.cell_value ch.2.1 ch.2.2).isSome) :
    (countChecks g checks).isSome := by
  induction checks with
  | nil => rfl
  | cons ch rest ih =>
    rw [countChecks]
    by_cases hg : ch.1 = true
    · rw [if_pos hg]
      obtain ⟨v, hv⟩ := Option.isSome_iff_exists.mp (h ch (List.mem_cons_self ch rest) hg)
      obtain ⟨n, hn⟩ := Option.isSome_iff_exists.mp
        (ih fun x hx hx1 => h x (List.mem_cons_of_mem ch hx) hx1)
      rw [hv, Option.some_bind, hn]
      rfl
    · rw [if_neg hg]
      exact ih fun x hx hx1 => h x (List.mem_cons_of_mem ch hx) hx1

theorem deadChecks_isSome {g : Game} {checks : List (Bool × Nat × Nat)}
    (h : ∀ ch ∈ checks, ch.1 = true → (g.cell_value ch.2.1 ch.2.2).isSome) :
    (deadChecks g checks).isSome := by
  induction checks with
  | nil => rfl
  | cons ch rest ih =>
    rw [deadChecks]
    by_cases hg : ch.1 = true
    · rw [if_pos hg]
      obtain ⟨v, hv⟩ := Option.isSome_iff_exists.mp (h ch (List.mem_cons_self ch rest) hg)
      obtain ⟨l, hl⟩ := Option.isSome_iff_exists.mp
        (ih fun x hx hx1 => h x (List.mem_cons_of_mem ch hx) hx1)
      rw [hv, Option.some_bind, hl]
      rfl
    · rw [if_neg hg]
      exact ih fun x hx hx1 => h x (List.mem_cons_of_mem ch hx) hx1

/-- With one full cell of margin towards the last row and column, every
probe of the neighbour count scan stays in bounds, so the scan returns. -/
theorem glnc_isSome {g : Game} (hR : g.Rect) {p : Nat × Nat} (h0 : 0 < g.rows)
    (hp1 : p.1 + 1 < g.rows) (hp2 : p.2 + 1 < g.cols) :
    (g.get_living_neighbours_count p).isSome := by
  rw [Game.get_living_neighbours_count, grid_size_some h0, Option.some_bind]
  show (countChecks g (nbrChecks g.rows g.cols p.1 p.2)).isSome
  apply countChecks_isSome
  intro ch hch hg
  rw [Game.cell_value_isSome_iff hR]
  unfold nbrChecks at hch
  fin_cases hch <;> dsimp only <;> constructor <;> omega

/-- With one full cell of margin towards the last row and column, the
dead-neighbour scan returns. -/
theorem gdn_isSome {g : Game} (hR : g.Rect) {p : Nat × Nat} (h0 : 0 < g.rows)
    (hp1 : p.1 + 1 < g.rows) (hp2 : p.2 + 1 < g.cols) :
    (g.get_dead_neighbours p).isSome := by
  rw [Game.get_dead_neighbours, grid_size_some h0, Option.some_bind]
  show (deadChecks g (nbrChecks g.rows g.cols p.1 p.2)).isSome
  apply deadChecks_isSome
  intro ch hch hg
  rw [Game.cell_value_isSome_iff hR]
  unfold nbrChecks at hch
  fin_cases hch <;> dsimp only <;> constructor <;> omega

theorem populate_isSome {g : Game} (h : (setAll 1 g.alive_cells g.grid).isSome) :
    (Game.populate g).isSome := by
  rw [Game.populate]
  obtain ⟨g2, hg2⟩ := Option.isSome_iff_exists.mp h
  rw [hg2]
  rfl

/-- Sufficient condition for `step()` to return: a well-formed state all of
whose live cells keep two full cells of margin towards the last row and the
last column.  (One cell is not enough: the dead birth candidates around a
live cell reach one row/column further, and their count scans probe one
more.) -/
theorem update_state_isSome {g : Game} (hW : g.Wf) (h0 : 0 < g.rows)
    (hm : ∀ p ∈ g.alive_cells, p.1 + 2 < g.rows ∧ p.2 + 2 < g.cols) :
    g.update_state.isSome := by
  obtain ⟨hR, hB, hA⟩ := hW
  have hdls : (optMapM g.get_dead_neighbours g.alive_cells).isSome := by
    apply optMapM_isSome_of
    intro p hp
    obtain ⟨h1, h2⟩ := hm p hp
    exact gdn_isSome hR h0 (by omega) (by omega)
  obtain ⟨dl, hdl⟩ := Option.isSome_iff_exists.mp hdls
  have hcand : ∀ q ∈ unique dl.flatten, q.1 + 1 < g.rows ∧ q.2 + 1 < g.cols := by
    intro q hq
    rw [mem_unique] at hq
    obtain ⟨p, hp, la, hla, hqla⟩ := (optMapM_flatten_mem hdl q).mp hq
    obtain ⟨hm1, hm2⟩ := hm p hp
    have hpr : p.1 < g.rows := by omega
    have hpc : p.2 < g.cols := by omega
    have hadj := ((get_dead_neighbours_spec hR hpr hpc hla q).mp hqla).1
    rw [adjacent_iff] at hadj
    omega
  have htis : (optFilter (fun c => (g.get_living_neighbours_count c).map
      fun n => decide (n = 3)) (unique dl.flatten)).isSome := by
    apply optFilter_isSome_of
    intro q hq
    obtain ⟨h1, h2⟩ := hcand q hq
    obtain ⟨n, hn⟩ := Option.isSome_iff_exists.mp (glnc_isSome hR h0 h1 h2)
    rw [hn]
    rfl
  obtain ⟨ti, hti⟩ := Option.isSome_iff_exists.mp htis
  have htrs : (optFilter (fun c => (g.get_living_neighbours_count c).map
      fun n => decide (n < 2 ∨ 3 < n)) g.alive_cells).isSome := by
    apply optFilter_isSome_of
    intro p hp
    obtain ⟨h1, h2⟩ := hm p hp
    have hq1 : p.1 + 1 < g.rows := by omega
    have hq2 : p.2 + 1 < g.cols := by omega
    obtain ⟨n, hn⟩ := Option.isSome_iff_exists.mp (glnc_isSome hR h0 hq1 hq2)
    rw [hn]
    rfl
  obtain ⟨tr, htr⟩ := Option.isSome_iff_exists.mp htrs
  have halive_isSome : ∀ x ∈ g.alive_cells, (cellVal g.grid x.1 x.2).isSome := by
    intro x hx
    have hx1 : cellVal g.grid x.1 x.2 = some 1 := (hA x.1 x.2).mpr hx
    rw [hx1]
    rfl
  have hsetr : (setAll 0 tr g.grid).isSome := by
    rw [setAll_isSome_iff]
    intro x hx
    exact halive_isSome x ((optFilter_mem htr x).mp hx).1
  obtain ⟨st1, hst1⟩ := Option.isSome_iff_exists.mp (@removeLoop_isSome tr g.grid g.alive_cells hsetr)
  obtain ⟨hsetrE, hal1⟩ := removeLoop_eq hst1
  have hti_base : ∀ x ∈ ti, (cellVal g.grid x.1 x.2).isSome := by
    intro x hx
    have hxm := ((optFilter_mem hti x).mp hx).1
    rw [mem_unique] at hxm
    obtain ⟨p, hp, la, hla, hqla⟩ := (optMapM_flatten_mem hdl x).mp hxm
    obtain ⟨hm1, hm2⟩ := hm p hp
    have hpr : p.1 < g.rows := by omega
    have hpc : p.2 < g.cols := by omega
    have hv0 : cellVal g.grid x.1 x.2 = some 0 :=
      ((get_dead_neighbours_spec hR hpr hpc hla x).mp hqla).2
    rw [hv0]
    rfl
  have hseti : (setAll 1 ti st1.1).isSome := by
    rw [setAll_isSome_iff]
    intro x hx
    exact (cellVal_isSome_congr (setAll_shape hsetrE).2 x.1 x.2).mpr (hti_base x hx)
  obtain ⟨st2, hst2⟩ := Option.isSome_iff_exists.mp (@insertLoop_isSome ti st1.1 st1.2 hseti)
  obtain ⟨hsetiE, hal2⟩ := insertLoop_eq hst2
  have hsetp : (setAll 1 st2.2 st2.1).isSome := by
    rw [setAll_isSome_iff]
    intro x hx
    have hxg : (cellVal g.grid x.1 x.2).isSome := by
      rw [hal2, List.mem_append] at hx
      rcases hx with hx | hx
      · rw [hal1, mem_foldl_filter] at hx
        exact halive_isSome x hx.1
      · exact hti_base x hx
    have h1 : (cellVal st1.1 x.1 x.2).isSome :=
      (cellVal_isSome_congr (setAll_shape hsetrE).2 x.1 x.2).mpr hxg
    exact (cellVal_isSome_congr (setAll_shape hsetiE).2 x.1 x.2).mpr h1
  have hpop : (Game.populate { grid := st2.1, alive_cells := st2.2 }).isSome :=
    @populate_isSome (Game.mk st2.1 st2.2) hsetp
  obtain ⟨g3, hg3⟩ := Option.isSome_iff_exists.mp hpop
  rw [Game.update_state]
  rw [hdl, Option.some_bind]
  rw [hti, Option.some_bind]
  rw [htr, Option.some_bind]
  rw [hst1, Option.some_bind]
  rw [hst2, Option.some_bind]
  rw [hg3, Option.map_some']
  rfl

/-! ## Claim-level theorems -/

/-- C1 (corrected): for every state where Grid and LiveSet agree, every
`step()` call that returns (rather than panicking on the out-of-bounds
neighbour scan, see C2) leaves `alive_cells` containing exactly the
generation-N+1 cells of the Game-of-Life rules evaluated against the
generation-N snapshot, as captured by `golNext`: survival with 2 or 3 live
neighbours, birth of an in-grid dead cell with exactly 3. -/
theorem claim_C1_step_postcondition {g g2 : Game} {out : List PrintEvent}
    (hW : g.Wf) (h : g.update_state = some (g2, out)) :
    ∀ p, p ∈ g2.alive_cells ↔ golNext g.rows g.cols g.alive_cells p :=
  (update_state_spec hW h).1

/-- Witness for C1: the concrete 5x5 block still life. -/
theorem claim_C1_witness :
    blockGame.Wf ∧
    blockGame.update_state =
      some (blockGame, [PrintEvent.removeLine [], PrintEvent.insertLine []]) ∧
    ∀ p, p ∈ blockGame.alive_cells ↔
      golNext blockGame.rows blockGame.cols blockGame.alive_cells p :=
  ⟨wfCheck_sound (by decide), by decide,
    @claim_C1_step_postcondition blockGame blockGame
      [PrintEvent.removeLine [], PrintEvent.insertLine []]
      (wfCheck_sound (by decide)) (by decide)⟩

/-- Counterexample to C1 as stated: this 1x1 state is well-formed (Grid and
LiveSet agree), yet `step()` produces no next generation at all — the
neighbour scan indexes out of bounds and the program panics (`none`). -/
theorem claim_C1_counterexample :
    (Game.mk [[1]] [(0, 0)]).Wf ∧ (Game.mk [[1]] [(0, 0)]).update_state = none :=
  ⟨wfCheck_sound (by decide), by decide⟩

/-- C2 (code bug): the neighbour-scan guards use `col + 1 <= cols` and
`row + 1 <= rows` (main.rs lines 133, 146, 152, 158, 180, 193, 199, 205),
so for any cell in the last row or last column the scan reads row index
`rows` or column index `cols`, which is out of bounds. On the well-formed
1x1 state both `get_living_neighbours_count` and `get_dead_neighbours`
panic (`none`) at the in-range coordinate (0, 0). -/
theorem claim_C2_boundary_scan_out_of_bounds :
    (Game.mk [[1]] [(0, 0)]).Wf ∧
    (Game.mk [[1]] [(0, 0)]).get_living_neighbours_count (0, 0) = none ∧
    (Game.mk [[1]] [(0, 0)]).get_dead_neighbours (0, 0) = none :=
  ⟨wfCheck_sound (by decide), by decide, by decide⟩

/-- C3: after construction, and after every sequence of `step()` calls that
returns, Grid and LiveSet agree: a cell holds `1` exactly when its
coordinate is in `alive_cells`. -/
theorem claim_C3_grid_liveset_agreement {seed : List (Nat × Nat)} {R C : Nat}
    {g0 : Game} (h : Game.new seed R C = some g0) :
    g0.Agrees ∧ ∀ n g, g0.stepN n = some g → g.Agrees := by
  have hwf0 : g0.Wf := ((new_spec seed R C).2 g0 h).2.2.2.1
  have key : ∀ n (g1 g : Game), g1.Wf → g1.stepN n = some g → g.Wf := by
    intro n
    induction n with
    | zero =>
      intro g1 g hW hs
      have he : g1 = g := Option.some.inj hs
      exact he ▸ hW
    | succ n ih =>
      intro g1 g hW hs
      have hs2 : g1.step.bind (fun x => Game.stepN n x) = some g := hs
      rw [Game.step] at hs2
      simp only [Option.map_eq_some', Option.bind_eq_some] at hs2
      obtain ⟨a, ⟨pair, hpair, ha⟩, hrest⟩ := hs2
      have hpair2 : g1.update_state = some (pair.1, pair.2) := by
        rw [Prod.mk.eta]; exact hpair
      have hWa : pair.1.Wf := (update_state_spec hW hpair2).2.1
      exact ih a g (ha ▸ hWa) hrest
  refine ⟨hwf0.2.2, ?_⟩
  intro n g hs
  exact (key n g0 g hwf0 hs).2.2

/-- Witness for C3: construction from the seed [(1, 1)] on a 4x4 grid. -/
theorem claim_C3_witness :
    Game.new [(1, 1)] 4 4 = some singleGame ∧
    (singleGame.Agrees ∧ ∀ n g, singleGame.stepN n = some g → g.Agrees) :=
  ⟨by decide, @claim_C3_grid_liveset_agreement [(1, 1)] 4 4 singleGame (by decide)⟩

/-- C4: construction from a seed containing an out-of-range coordinate
fails (the `populate` indexing panics, modelled as `none`), so no engine in
an inconsistent state is produced; construction from an in-range seed
yields the R x C grid that is dead everywhere except exactly at the seed
coordinates, with the live list equal to the seed. -/
theorem claim_C4_construction (seed : List (Nat × Nat)) (R C : Nat) :
    ((∃ p ∈ seed, R ≤ p.1 ∨ C ≤ p.2) → Game.new seed R C = none) ∧
      ((∀ p ∈ seed, p.1 < R ∧ p.2 < C) →
        ∃ g, Game.new seed R C = some g ∧ g.alive_cells = seed ∧ g.rows = R ∧
          (∀ (i : Nat) (row : List Nat), g.grid[i]? = some row → row.length = C) ∧
          (∀ r c, r < R → c < C →
            g.cell_value r c = some (if (r, c) ∈ seed then 1 else 0))) := by
  obtain ⟨hnone, hsome⟩ := new_spec seed R C
  refine ⟨fun hex => hnone.mpr hex, fun hin => ?_⟩
  cases hg : Game.new seed R C with
  | none =>
    obtain ⟨p, hp, hb⟩ := hnone.mp hg
    have := hin p hp
    omega
  | some g =>
    obtain ⟨h1, h2, h3, _, h5⟩ := hsome g hg
    exact ⟨g, rfl, h1, h2, h3, h5⟩

/-- Witness for C4: an out-of-range seed on a 3x3 grid, and an in-range
seed on a 3x2 grid. -/
theorem claim_C4_witness :
    Game.new [(3, 0)] 3 3 = none ∧
    (∃ g, Game.new [(0, 0), (2, 1)] 3 2 = some g ∧
      g.alive_cells = [(0, 0), (2, 1)] ∧ g.rows = 3 ∧
      (∀ (i : Nat) (row : List Nat), g.grid[i]? = some row → row.length = 2) ∧
      (∀ r c, r < 3 → c < 2 →
        g.cell_value r c = some (if (r, c) ∈ [(0, 0), (2, 1)] then 1 else 0))) :=
  ⟨(claim_C4_construction [(3, 0)] 3 3).1 ⟨(3, 0), by decide, by decide⟩,
   (claim_C4_construction [(0, 0), (2, 1)] 3 2).2 (by decide)⟩

/-- C5: the engine is deterministic — two runs from the identical seed on
identical dimensions for the same number of steps produce identical grid
contents (and identical live lists). -/
theorem claim_C5_determinism (seed : List (Nat × Nat)) (R C n : Nat)
    (ga gb : Game) (h1 : runGame seed R C n = some ga)
    (h2 : runGame seed R C n = some gb) :
    ga.grid = gb.grid ∧ ga.alive_cells = gb.alive_cells := by
  rw [h1] at h2
  have he : ga = gb := Option.some.inj h2
  rw [he]
  exact ⟨rfl, rfl⟩

/-- Witness for C5: two one-step runs from the seed [(1, 1)] on a 4x4
grid. -/
theorem claim_C5_witness :
    runGame [(1, 1)] 4 4 1 = some deadGame ∧
    deadGame.grid = deadGame.grid ∧ deadGame.alive_cells = deadGame.alive_cells :=
  ⟨by decide,
    claim_C5_determinism [(1, 1)] 4 4 1 deadGame deadGame (by decide) (by decide)⟩

/-- C6 (corrected): a horizontal blinker (live cells exactly at row `r`,
columns `c`, `c+1`, `c+2`) that is interior (`0 < r`, `0 < c`) and keeps
two spare rows below the vertical phase's lowest cell (`r + 3 < R`) and two
spare columns right of its last cell (`c + 4 < C`) oscillates, and both
`step()` calls provably return: the first yields the vertical orientation,
the second the horizontal orientation again, and after exactly 2 steps the
grid equals the original grid and the live list denotes the original set.
The margin is what keeps the off-by-one neighbour scan of C2 away from the
last row and column through both phases; mere full interiority is not
enough (see the counterexample). -/
theorem claim_C6_blinker_period_two {R C r c : Nat} {g : Game}
    (hW : g.Wf) (hR : g.rows = R) (hC : g.cols = C)
    (hH : EqSet g.alive_cells [(r, c), (r, c + 1), (r, c + 2)])
    (hr1 : 0 < r) (hr2 : r + 3 < R) (hc1 : 0 < c) (hc2 : c + 4 < C) :
    ∃ g1 o1 g2 o2,
      g.update_state = some (g1, o1) ∧ g1.update_state = some (g2, o2) ∧
      EqSet g1.alive_cells [(r - 1, c + 1), (r, c + 1), (r + 1, c + 1)] ∧
      EqSet g2.alive_cells [(r, c), (r, c + 1), (r, c + 2)] ∧
      g2.grid = g.grid := by
  have h0 : 0 < g.rows := by omega
  have hr2' : r + 1 < R := by omega
  have hc2' : c + 4 ≤ C := by omega
  have hm1 : ∀ p ∈ g.alive_cells, p.1 + 2 < g.rows ∧ p.2 + 2 < g.cols := by
    intro p hp
    have hmem := (hH p).mp hp
    simp only [List.mem_cons, List.not_mem_nil, or_false] at hmem
    rcases hmem with rfl | rfl | rfl <;> dsimp only <;> constructor <;> omega
  obtain ⟨pr1, hpr1⟩ := Option.isSome_iff_exists.mp (update_state_isSome hW h0 hm1)
  have h1 : g.update_state = some (pr1.1, pr1.2) := by rw [Prod.mk.eta]; exact hpr1
  obtain ⟨hmem1, hW1, hrows1, hcols1⟩ := update_state_spec hW h1
  have hv : EqSet pr1.1.alive_cells [(r - 1, c + 1), (r, c + 1), (r + 1, c + 1)] := by
    intro p
    have hb := blinkerH_next hr1 hr2' hc1 hc2' p
    rw [← hR, ← hC] at hb
    exact (hmem1 p).trans ((golNext_congr hH p).trans hb)
  have h02 : 0 < pr1.1.rows := by rw [hrows1]; exact h0
  have hm2 : ∀ p ∈ pr1.1.alive_cells, p.1 + 2 < pr1.1.rows ∧ p.2 + 2 < pr1.1.cols := by
    intro p hp
    have hmem := (hv p).mp hp
    simp only [List.mem_cons, List.not_mem_nil, or_false] at hmem
    rw [hrows1, hcols1]
    rcases hmem with rfl | rfl | rfl <;> dsimp only <;> constructor <;> omega
  obtain ⟨pr2, hpr2⟩ := Option.isSome_iff_exists.mp (update_state_isSome hW1 h02 hm2)
  have h2 : pr1.1.update_state = some (pr2.1, pr2.2) := by rw [Prod.mk.eta]; exact hpr2
  obtain ⟨hmem2, hW2, hrows2, hcols2⟩ := update_state_spec hW1 h2
  have hv2 : EqSet pr2.1.alive_cells [(r, c), (r, c + 1), (r, c + 2)] := by
    intro p
    have hb := blinkerV_next hr1 hr2' hc1 hc2' p
    have hb2 : golNext pr1.1.rows pr1.1.cols
        [(r - 1, c + 1), (r, c + 1), (r + 1, c + 1)] p ↔
          p ∈ [(r, c), (r, c + 1), (r, c + 2)] := by
      rw [hrows1, hR, hcols1, hC]
      exact hb
    exact (hmem2 p).trans ((golNext_congr hv p).trans hb2)
  have heq : EqSet pr2.1.alive_cells g.alive_cells :=
    fun x => (hv2 x).trans (hH x).symm
  exact ⟨pr1.1, pr1.2, pr2.1, pr2.2, h1, h2, hv, hv2,
    grid_eq_of_wf hW2 hW (hrows2.trans hrows1) (hcols2.trans hcols1) heq⟩

/-- Witness for C6: the concrete 5x6 blinker; the theorem itself produces
the two returning steps. -/
theorem claim_C6_witness :
    blinkerGame.Wf ∧
    (∃ g1 o1 g2 o2,
      blinkerGame.update_state = some (g1, o1) ∧
      g1.update_state = some (g2, o2) ∧
      EqSet g1.alive_cells [(0, 2), (1, 2), (2, 2)] ∧
      EqSet g2.alive_cells [(1, 1), (1, 2), (1, 3)] ∧
      g2.grid = blinkerGame.grid) :=
  ⟨wfCheck_sound (by decide),
    @claim_C6_blinker_period_two 5 6 1 1 blinkerGame (wfCheck_sound (by decide))
      rfl rfl (fun x => Iff.rfl) (by decide) (by decide) (by decide) (by decide)⟩

/-- Counterexample to C6 as stated: on this 4x9 board the live cells form
exactly a fully interior horizontal blinker (every neighbour of every live
cell is inside the grid), yet the first `step()` already panics (`none`):
the birth candidates on row 3 sit in the last row, where the off-by-one
scan of C2 reads row 4. -/
theorem claim_C6_counterexample :
    blinker49.Wf ∧
    blinker49.alive_cells = [(2, 3), (2, 4), (2, 5)] ∧
    blinker49.rows = 4 ∧ blinker49.cols = 9 ∧
    blinker49.update_state = none :=
  ⟨wfCheck_sound (by decide), rfl, rfl, rfl, by decide⟩

/-- C7 (corrected): whenever a `step()` call on a state whose LiveSet is a
single cell returns (see C2 for the panics), the result has an empty
LiveSet and an all-dead grid, and every further number of `step()` calls
returns that same empty state. -/
theorem claim_C7_extinction {g g2 : Game} {p : Nat × Nat}
    {out : List PrintEvent} (hW : g.Wf) (hone : g.alive_cells = [p])
    (h : g.update_state = some (g2, out)) :
    g2.alive_cells = [] ∧ (∀ r c v, g2.cell_value r c = some v → v = 0) ∧
      ∀ n, g2.stepN n = some g2 := by
  obtain ⟨hmem, hW2, _, _⟩ := update_state_spec hW h
  have hded : ([p] : List (Nat × Nat)).dedup = [p] :=
    List.dedup_eq_self.mpr (List.nodup_singleton p)
  have hempty : g2.alive_cells = [] := by
    rw [List.eq_nil_iff_forall_not_mem]
    intro q hq
    have hg := (hmem q).mp hq
    rw [golNext, hone] at hg
    have hcnt : specLiveCount [p] q ≤ 1 := by
      rw [specLiveCount, hded, List.countP_cons, List.countP_nil]
      by_cases hd : Adjacent q p <;> simp [hd]
    rcases hg with ⟨_, hc⟩ | ⟨_, _, _, hc⟩ <;> omega
  have hstep : g2.step = some g2 := by
    rw [Game.step]
    have hg2eta : g2 = Game.mk g2.grid [] := by rw [← hempty]
    rw [hg2eta, step_empty]
    rfl
  refine ⟨hempty, ?_, ?_⟩
  · intro r c v hv
    rcases hW2.2.1 r c v hv with h0 | h1
    · exact h0
    · subst h1
      have hm := (hW2.2.2 r c).mp hv
      rw [hempty] at hm
      cases hm
  · intro n
    induction n with
    | zero => rfl
    | succ n ih =>
      show g2.step.bind (fun x => Game.stepN n x) = some g2
      rw [hstep, Option.some_bind]
      exact ih

/-- Witness for C7: the single live cell at (1, 1) on a 4x4 board. -/
theorem claim_C7_witness :
    singleGame.Wf ∧ singleGame.alive_cells = [(1, 1)] ∧
    singleGame.update_state =
      some (deadGame, [PrintEvent.removeLine [(1, 1)], PrintEvent.insertLine []]) ∧
    (deadGame.alive_cells = [] ∧
      (∀ r c v, deadGame.cell_value r c = some v → v = 0) ∧
      ∀ n, deadGame.stepN n = some deadGame) :=
  ⟨wfCheck_sound (by decide), rfl, by decide,
    @claim_C7_extinction singleGame deadGame (1, 1)
      [PrintEvent.removeLine [(1, 1)], PrintEvent.insertLine []]
      (wfCheck_sound (by decide)) rfl (by decide)⟩

/-- Counterexample to C7 as stated: a single isolated live cell at the
bottom-right corner of a 2x2 board; instead of dying into an empty LiveSet,
the `step()` call panics (`none`) through the off-by-one scan of C2. -/
theorem claim_C7_counterexample :
    (Game.mk [[0, 0], [0, 1]] [(1, 1)]).Wf ∧
    (Game.mk [[0, 0], [0, 1]] [(1, 1)]).alive_cells = [(1, 1)] ∧
    (Game.mk [[0, 0], [0, 1]] [(1, 1)]).update_state = none :=
  ⟨wfCheck_sound (by decide), rfl, by decide⟩

/-- C8 (corrected): `step()` is not I/O-free — every returning call writes
exactly two diagnostic lines to standard output (the `println!` calls at
main.rs lines 109 and 115): the removed-cells list and the inserted-cells
list, modelled here as the `PrintEvent` trace beside the new state. -/
theorem claim_C8_step_diagnostics {g g2 : Game} {out : List PrintEvent}
    (h : g.update_state = some (g2, out)) :
    ∃ removed inserted,
      out = [PrintEvent.removeLine removed, PrintEvent.insertLine inserted] := by
  obtain ⟨dl, ti, tr, st1, st2, _, _, _, _, _, _, hout⟩ := update_state_inv h
  exact ⟨tr, ti, hout⟩

/-- Witness for C8: the 1x1 all-dead state. -/
theorem claim_C8_witness :
    (Game.mk [[0]] []).update_state =
      some (Game.mk [[0]] [], [PrintEvent.removeLine [], PrintEvent.insertLine []]) ∧
    ∃ removed inserted,
      ([PrintEvent.removeLine [], PrintEvent.insertLine []] : List PrintEvent) =
        [PrintEvent.removeLine removed, PrintEvent.insertLine inserted] :=
  ⟨rfl, @claim_C8_step_diagnostics (Game.mk [[0]] []) (Game.mk [[0]] [])
    [PrintEvent.removeLine [], PrintEvent.insertLine []] rfl⟩

/-- Counterexample to C8 as stated: even on a state with no live cells at
all, `step()` produces a nonempty output trace. -/
theorem claim_C8_counterexample :
    (Game.mk [[0]] []).update_state =
      some (Game.mk [[0]] [], [PrintEvent.removeLine [], PrintEvent.insertLine []]) ∧
    ([PrintEvent.removeLine [], PrintEvent.insertLine []] : List PrintEvent) ≠ [] :=
  ⟨rfl, by decide⟩

/-- C9: on every nonempty rectangular grid, `render` reads the state and
prints exactly `gridStr`: one glyph per cell (`DEAD` for value 0, `ALIVE`
otherwise), rows in row-major order, a newline between consecutive rows and
none after the last; the state itself is returned untouched (`render` only
produces the string). -/
theorem claim_C9_render_format {g : Game} (hne : g.grid ≠ []) (hR : g.Rect) :
    g.render = some (gridStr g.grid) :=
  render_spec hne hR

/-- Witness for C9: a 2x2 board with live cells on the diagonal. -/
theorem claim_C9_witness :
    (Game.mk [[1, 0], [0, 1]] [(0, 0), (1, 1)]).grid ≠ [] ∧
    (Game.mk [[1, 0], [0, 1]] [(0, 0), (1, 1)]).render =
      some (gridStr [[1, 0], [0, 1]]) ∧
    gridStr [[1, 0], [0, 1]] = "█░\n░█" :=
  ⟨by decide,
    @claim_C9_render_format (Game.mk [[1, 0], [0, 1]] [(0, 0), (1, 1)])
      (by decide) (rectCheck_sound (by decide)), rfl⟩

/-- C10: duplicate entries in, and the ordering of, `alive_cells` do not
affect the outcome of `step()`: if one run from a grid returns, the run
from the same grid with a live list denoting the same set also returns,
with an identical grid and a live list denoting the same set. -/
theorem claim_C10_liveset_set_semantics {grid : List (List Nat)}
    {l1 l2 : List (Nat × Nat)} {g1' : Game} {out1 : List PrintEvent}
    (hs : EqSet l1 l2)
    (h1 : (Game.mk grid l1).update_state = some (g1', out1)) :
    ∃ g2' out2, (Game.mk grid l2).update_state = some (g2', out2) ∧
      g1'.grid = g2'.grid ∧ EqSet g1'.alive_cells g2'.alive_cells :=
  update_state_eqset hs h1

/-- Witness for C10: the 4x4 single-cell board with a duplicated live
entry versus the deduplicated list. -/
theorem claim_C10_witness :
    EqSet [((1 : Nat), (1 : Nat)), (1, 1)] [(1, 1)] ∧
    (Game.mk [[0, 0, 0, 0], [0, 1, 0, 0], [0, 0, 0, 0], [0, 0, 0, 0]]
        [(1, 1), (1, 1)]).update_state =
      some (deadGame, [PrintEvent.removeLine [(1, 1), (1, 1)], PrintEvent.insertLine []]) ∧
    ∃ g2' out2,
      (Game.mk [[0, 0, 0, 0], [0, 1, 0, 0], [0, 0, 0, 0], [0, 0, 0, 0]]
          [(1, 1)]).update_state = some (g2', out2) ∧
        deadGame.grid = g2'.grid ∧ EqSet deadGame.alive_cells g2'.alive_cells :=
  ⟨by intro x; simp, by decide,
    @claim_C10_liveset_set_semantics
      [[0, 0, 0, 0], [0, 1, 0, 0], [0, 0, 0, 0], [0, 0, 0, 0]]
      [(1, 1), (1, 1)] [(1, 1)] deadGame
      [PrintEvent.removeLine [(1, 1), (1, 1)], PrintEvent.insertLine []]
      (by intro x; simp) (by decide)⟩
